import Mathlib

/-!
# RouteGuide server: a shallow embedding of `server/server.go`

The four call handlers of `RouteGuideServer` (`GetFeature`, `ListFeatures`,
`RecordRoute`, `RouteChat`) and the helpers `inRange` and `serialize` are
translated into Lean functions.

* `int32` values are `Int`s; every `int32` addition of the source is followed by
  `wrapInt32`, the two's-complement reduction Go applies on overflow.
* An inbound stream is the finite list of messages `Recv` hands out followed by the
  error that ends it (`none` stands for `io.EOF`).
* An outbound stream is a function from the calls made so far on the stream to the
  result of the next `Send` (`none` stands for a `nil` error).  Handlers return the
  list of calls they made, so that the order of receives and sends can be stated.
* `calcDistance` works on `float64` with `math.Sin`, `math.Cos`, `math.Atan2` and
  `math.Sqrt`; the handlers take it as a parameter.  The elapsed time read off the
  wall clock and the result of `SendAndClose` are parameters as well.
* The conversion `float64(x)` of an integer is `float64OfInt`; `inRangeFloat64` is `inRange`
  with these conversions written out.
* Calls running at the same time are modelled statement by statement: `stepPost` is one
  statement of the body of the `RouteChat` loop and `runSchedule` runs the statements of
  several calls in a given order on the shared server.
-/

namespace RouteGuide

/-! ## Data model -/

/-- Modelled from the spec: the message type `spec.Point` (generated protobuf code of
package `spec`, which is not part of the source tree).  Latitude and longitude are
`int32` fixed-point degrees times `10^7`. -/
structure Point where
  Latitude : Int
  Longitude : Int
deriving DecidableEq, Repr

/-- Modelled from the spec: the message type `spec.Rectangle`, two corner points that need
not be normalized. -/
structure Rectangle where
  Lo : Point
  Hi : Point
deriving DecidableEq, Repr

/-- Modelled from the spec: the message type `spec.Feature`, a name (possibly empty) paired
with exactly one point. -/
structure Feature where
  Name : String
  Location : Point
deriving DecidableEq, Repr

/-- Modelled from the spec: the message type `spec.RouteNote`, a point and a free-text
message. -/
structure RouteNote where
  Location : Point
  Message : String
deriving DecidableEq, Repr

/-- Modelled from the spec: the message type `spec.RouteSummary`, four `int32` fields. -/
structure RouteSummary where
  PointCount : Int
  FeatureCount : Int
  Distance : Int
  ElapsedTime : Int
deriving DecidableEq, Repr

/-- An error value other than `io.EOF`. -/
abbrev Error := String

/-- The receiver `RouteGuideServer`: the feature list and the map of note histories
(`map[string][]*spec.RouteNote`; `none` is an absent key). -/
structure RouteGuideServer where
  savedFeatures : List Feature
  routeNotes : String → Option (List RouteNote)

/-- The value range of `int32`. -/
def isInt32 (x : Int) : Prop := -2147483648 ≤ x ∧ x ≤ 2147483647

instance (x : Int) : Decidable (isInt32 x) := by
  unfold isInt32; infer_instance

/-- Two's-complement reduction of an integer to `int32`, what Go's `int32` arithmetic
yields on overflow. -/
def wrapInt32 (x : Int) : Int := (x + 2147483648) % 4294967296 - 2147483648

/-! ## Streams -/

/-- An inbound stream as seen through `Recv`: the messages handed out in order, then the
error that ends the stream, `none` being `io.EOF`. -/
structure InStream (α : Type) where
  items : List α
  last : Option Error

/-- One call made on a stream by a handler, with what it returned. -/
inductive Event (ι ο : Type) where
  | recvMsg (msg : ι)
  | recvEOF
  | recvErr (err : Error)
  | send (msg : ο) (result : Option Error)
deriving DecidableEq, Repr

/-- The outbound side of a stream: the result of `Send(msg)` given the calls made so far. -/
abbrev Sender (ι ο : Type) := List (Event ι ο) → ο → Option Error

/-! ## GetFeature -/

/-- The loop of `GetFeature` over `s.savedFeatures`: the first feature whose location
`proto.Equal`s the point, else the unnamed feature `&spec.Feature{Location: point}`.
The error is always `nil`. -/
def GetFeature.loop (point : Point) : List Feature → Feature × Option Error
  | [] => ({ Name := "", Location := point }, none)
  | feature :: rest =>
    if feature.Location = point then (feature, none) else GetFeature.loop point rest

/-- The handler `GetFeature`. -/
def GetFeature (s : RouteGuideServer) (point : Point) : Feature × Option Error :=
  GetFeature.loop point s.savedFeatures

/-! ## inRange and ListFeatures -/

/-- The function `inRange`.  The source converts the `int32` coordinates to `float64`, which
is exact, and compares with `math.Min` and `math.Max`; the same comparisons are made here on
the integers. -/
def inRange (point : Point) (rect : Rectangle) : Bool :=
  let left := min rect.Lo.Longitude rect.Hi.Longitude
  let right := max rect.Lo.Longitude rect.Hi.Longitude
  let top := max rect.Lo.Latitude rect.Hi.Latitude
  let bottom := min rect.Lo.Latitude rect.Hi.Latitude
  if point.Longitude ≥ left ∧ point.Longitude ≤ right ∧
      point.Latitude ≥ bottom ∧ point.Latitude ≤ top then
    true
  else
    false

/-- The loop of `ListFeatures`: `calls` are the calls made so far on the stream.  Returns
all calls made and the returned error. -/
def ListFeatures.loop (rect : Rectangle) (send : Sender Unit Feature) :
    List Feature → List (Event Unit Feature) → List (Event Unit Feature) × Option Error
  | [], calls => (calls, none)
  | feature :: rest, calls =>
    if inRange feature.Location rect then
      match send calls feature with
      | some err => (calls ++ [Event.send feature (some err)], some err)
      | none => ListFeatures.loop rect send rest (calls ++ [Event.send feature none])
    else
      ListFeatures.loop rect send rest calls

/-- The handler `ListFeatures`. -/
def ListFeatures (s : RouteGuideServer) (rect : Rectangle) (send : Sender Unit Feature) :
    List (Event Unit Feature) × Option Error :=
  ListFeatures.loop rect send s.savedFeatures []

/-! ## RecordRoute -/

/-- The inner loop of `RecordRoute` over `s.savedFeatures`: `featureCount++` for every
feature whose location `proto.Equal`s the point. -/
def RecordRoute.countFeatures (point : Point) : List Feature → Int → Int
  | [], featureCount => featureCount
  | feature :: rest, featureCount =>
    if feature.Location = point then
      RecordRoute.countFeatures point rest (wrapInt32 (featureCount + 1))
    else
      RecordRoute.countFeatures point rest featureCount

/-- The local variables of `RecordRoute`. -/
structure RecordRoute.Locals where
  pointCount : Int
  featureCount : Int
  distance : Int
  lastPoint : Option Point
deriving DecidableEq, Repr

/-- The `for` loop of `RecordRoute`, one step per `Recv`.  `calcDistance` is the source
function of that name, `elapsedTime` the value of
`int32(endTime.Sub(startTime).Seconds())` and `sendAndClose` the result of
`stream.SendAndClose`.  Returns the summary handed to `SendAndClose`, if it was called,
and the returned error. -/
def RecordRoute.loop (calcDistance : Point → Point → Int) (elapsedTime : Int)
    (sendAndClose : RouteSummary → Option Error) (s : RouteGuideServer)
    (last : Option Error) : List Point → RecordRoute.Locals → Option RouteSummary × Option Error
  | [], v =>
    match last with
    | none =>
      let summary : RouteSummary :=
        { PointCount := v.pointCount
          FeatureCount := v.featureCount
          Distance := v.distance
          ElapsedTime := elapsedTime }
      (some summary, sendAndClose summary)
    | some err => (none, some err)
  | point :: rest, v =>
    let pointCount := wrapInt32 (v.pointCount + 1)
    let featureCount := RecordRoute.countFeatures point s.savedFeatures v.featureCount
    let distance :=
      match v.lastPoint with
      | some lastPoint => wrapInt32 (v.distance + calcDistance lastPoint point)
      | none => v.distance
    RecordRoute.loop calcDistance elapsedTime sendAndClose s last rest
      { pointCount := pointCount, featureCount := featureCount, distance := distance,
        lastPoint := some point }

/-- The handler `RecordRoute`: the counters start at zero and `lastPoint` at `nil`. -/
def RecordRoute (calcDistance : Point → Point → Int) (elapsedTime : Int)
    (sendAndClose : RouteSummary → Option Error) (s : RouteGuideServer)
    (stream : InStream Point) : Option RouteSummary × Option Error :=
  RecordRoute.loop calcDistance elapsedTime sendAndClose s stream.last stream.items
    { pointCount := 0, featureCount := 0, distance := 0, lastPoint := none }

/-! ## serialize and RouteChat -/

/-- The characters `%d` prints for a natural number: its decimal digits, most significant
first, and `0` for zero. -/
def fmtNat (n : Nat) : List Char :=
  if n = 0 then ['0'] else ((Nat.digits 10 n).reverse.map Nat.digitChar)

/-- The characters `%d` prints for an integer: a minus sign before the digits of a negative
number. -/
def fmtInt (x : Int) : List Char :=
  if x < 0 then '-' :: fmtNat x.natAbs else fmtNat x.natAbs

/-- The function `serialize`: `fmt.Sprintf("%d %d", point.Latitude, point.Longitude)`. -/
def serialize (point : Point) : String :=
  String.mk (fmtInt point.Latitude ++ ' ' :: fmtInt point.Longitude)

/-- The assignment `s.routeNotes[key] = notes`. -/
def setNotes (s : RouteGuideServer) (key : String) (notes : List RouteNote) :
    RouteGuideServer :=
  { s with routeNotes := fun k => if k = key then some notes else s.routeNotes k }

/-- The lines of `RouteChat` that record an inbound note under its key: a new one-element
history when the key is absent, an `append` otherwise. -/
def RouteChat.record (s : RouteGuideServer) (note : RouteNote) : RouteGuideServer :=
  let key := serialize note.Location
  match s.routeNotes key with
  | none => setNotes s key [note]
  | some notes => setNotes s key (notes ++ [note])

/-- The inner loop of `RouteChat` over `s.routeNotes[key]`: one `Send` per note, stopping
at the first error. -/
def RouteChat.sendAll (send : Sender RouteNote RouteNote) :
    List RouteNote → List (Event RouteNote RouteNote) →
      List (Event RouteNote RouteNote) × Option Error
  | [], calls => (calls, none)
  | note :: rest, calls =>
    match send calls note with
    | some err => (calls ++ [Event.send note (some err)], some err)
    | none => RouteChat.sendAll send rest (calls ++ [Event.send note none])

/-- The outer loop of `RouteChat`, one step per `Recv`.  Returns the server afterwards, all
calls made on the stream and the returned error. -/
def RouteChat.loop (send : Sender RouteNote RouteNote) (last : Option Error) :
    List RouteNote → RouteGuideServer → List (Event RouteNote RouteNote) →
      RouteGuideServer × List (Event RouteNote RouteNote) × Option Error
  | [], s, calls =>
    match last with
    | none => (s, calls ++ [Event.recvEOF], none)
    | some err => (s, calls ++ [Event.recvErr err], some err)
  | note :: rest, s, calls =>
    let s1 := RouteChat.record s note
    match RouteChat.sendAll send ((s1.routeNotes (serialize note.Location)).getD [])
        (calls ++ [Event.recvMsg note]) with
    | (calls1, some err) => (s1, calls1, some err)
    | (calls1, none) => RouteChat.loop send last rest s1 calls1

/-- The handler `RouteChat`. -/
def RouteChat (s : RouteGuideServer) (stream : InStream RouteNote)
    (send : Sender RouteNote RouteNote) :
    RouteGuideServer × List (Event RouteNote RouteNote) × Option Error :=
  RouteChat.loop send stream.last stream.items s []

/-- The server built by `NewRouteGuideServer` from the loaded features: an empty note
map. -/
def NewRouteGuideServer (features : List Feature) : RouteGuideServer :=
  { savedFeatures := features, routeNotes := fun _ => none }

/-- A sender on which every `Send` returns `nil`. -/
def sendOk {ι ο : Type} : Sender ι ο := fun _ _ => none

/-! ## Definitions used in the statements -/

/-- The distance the specification attributes to a route: the sum of `calcDistance` over
the pairs of consecutive points, nothing for the first point. -/
def routeDistance (calcDistance : Point → Point → Int) : List Point → Int
  | p :: q :: rest => calcDistance p q + routeDistance calcDistance (q :: rest)
  | _ => 0

/-- The number of stored features whose location equals the point. -/
def matchCount (s : RouteGuideServer) (p : Point) : Nat :=
  (s.savedFeatures.filter (fun f => f.Location = p)).length

/-- The feature count the specification attributes to a route: the sum over its points of
the number of stored features located there. -/
def routeFeatureCount (s : RouteGuideServer) (route : List Point) : Int :=
  (route.map (fun p => (matchCount s p : Int))).sum

/-- The values `calcDistance` takes on the two equator points `(0, 0)` and
`(0, 1800000000)`, longitudes 0 and 180 degrees: between them `Δλ/2 = π/2`, `a = 1`,
`c = 2 * atan2(1, 0) = π` and `int32(6371000 * π) = 20015086`; from each to itself 0. -/
def equatorDistance (p1 p2 : Point) : Int :=
  if p1.Longitude = p2.Longitude then 0 else 20015086

/-- A route of 109 points going back and forth between `(0, 0)` and `(0, 1800000000)`. -/
def backAndForth : List Point :=
  (List.range 109).map (fun i => { Latitude := 0, Longitude := if i % 2 = 0 then 0 else 1800000000 })

/-- Reads back the number printed by `fmtNat`. -/
def readNat (cs : List Char) : Nat :=
  Nat.ofDigits 10 (cs.reverse.map (fun c => c.toNat - 48))

/-- Reads back the number printed by `fmtInt`. -/
def readInt : List Char → Int
  | '-' :: cs => -(readNat cs : Int)
  | cs => (readNat cs : Int)

/-- The events of successful `Send` calls for the given messages, in order. -/
def okSends {ι ο : Type} (msgs : List ο) : List (Event ι ο) :=
  msgs.map (fun m => Event.send m none)

/-- Whether an event is a call to `Recv`. -/
def Event.isRecv {ι ο : Type} : Event ι ο → Bool
  | Event.send _ _ => false
  | _ => true

/-- The history stored for the key of a point, empty when the key is absent. -/
def historyAt (s : RouteGuideServer) (p : Point) : List RouteNote :=
  (s.routeNotes (serialize p)).getD []

/-- One call to a handler of the server, with the behaviour of its stream. -/
inductive Call where
  | getFeature (point : Point)
  | listFeatures (rect : Rectangle) (send : Sender Unit Feature)
  | recordRoute (calcDistance : Point → Point → Int) (elapsedTime : Int)
      (sendAndClose : RouteSummary → Option Error) (stream : InStream Point)
  | routeChat (stream : InStream RouteNote) (send : Sender RouteNote RouteNote)

/-- The server after a call.  `GetFeature`, `ListFeatures` and `RecordRoute` assign no
field of the receiver; `RouteChat` assigns entries of `s.routeNotes`. -/
def serve (s : RouteGuideServer) : Call → RouteGuideServer
  | Call.getFeature _ => s
  | Call.listFeatures _ _ => s
  | Call.recordRoute _ _ _ _ => s
  | Call.routeChat stream send => (RouteChat s stream send).1

/-! ## Conversions to `float64` and calls running at the same time -/

/-- Both coordinates of a point are `int32` values. -/
def Point.inInt32 (p : Point) : Prop := isInt32 p.Latitude ∧ isInt32 p.Longitude

instance (p : Point) : Decidable p.inInt32 := by
  unfold Point.inInt32; infer_instance

/-- The value of the conversion `float64(x)` of an integer `x`: `x` itself when its
magnitude is below `2^53`, where every integer is a `float64`; beyond that the nearest
`float64`, a multiple of the spacing `2^k` at that magnitude, ties going to the even
significand. -/
def float64OfInt (x : Int) : Int :=
  let a := x.natAbs
  if a < 9007199254740992 then x
  else
    let k := Nat.log2 a - 52
    let q := a / 2 ^ k
    let r := a % 2 ^ k
    let half := 2 ^ (k - 1)
    let q1 := if half < r ∨ (r = half ∧ q % 2 = 1) then q + 1 else q
    Int.sign x * ((q1 * 2 ^ k : Nat) : Int)

/-- The function `inRange` with the `float64` conversions of the source written out:
`math.Min` and `math.Max` of the converted corner coordinates, then the four comparisons of
the converted point coordinates. -/
def inRangeFloat64 (point : Point) (rect : Rectangle) : Bool :=
  let left := min (float64OfInt rect.Lo.Longitude) (float64OfInt rect.Hi.Longitude)
  let right := max (float64OfInt rect.Lo.Longitude) (float64OfInt rect.Hi.Longitude)
  let top := max (float64OfInt rect.Lo.Latitude) (float64OfInt rect.Hi.Latitude)
  let bottom := min (float64OfInt rect.Lo.Latitude) (float64OfInt rect.Hi.Latitude)
  if float64OfInt point.Longitude ≥ left ∧ float64OfInt point.Longitude ≤ right ∧
      float64OfInt point.Latitude ≥ bottom ∧ float64OfInt point.Latitude ≤ top then
    true
  else
    false

/-- Where a `RouteChat` call stands in handling one inbound note: before the map lookup
`_, present := s.routeNotes[key]`, before the assignment to `s.routeNotes[key]` that the
lookup selected, before the `range s.routeNotes[key]`, and with the ranged-over history in
hand, which is what the call sends. -/
inductive PostStage where
  | atLookup
  | atStore (present : Bool)
  | atRange
  | sending (history : List RouteNote)
deriving DecidableEq, Repr

/-- One `RouteChat` call handling the inbound note `note`. -/
structure Post where
  note : RouteNote
  stage : PostStage
deriving DecidableEq, Repr

/-- One statement of the body of the `RouteChat` loop, run by one call on the shared server.
The source takes no lock around these statements. -/
def stepPost (s : RouteGuideServer) (post : Post) : RouteGuideServer × Post :=
  let key := serialize post.note.Location
  match post.stage with
  | PostStage.atLookup =>
    (s, { post with stage := PostStage.atStore (s.routeNotes key).isSome })
  | PostStage.atStore false =>
    (setNotes s key [post.note], { post with stage := PostStage.atRange })
  | PostStage.atStore true =>
    (setNotes s key ((s.routeNotes key).getD [] ++ [post.note]),
      { post with stage := PostStage.atRange })
  | PostStage.atRange =>
    (s, { post with stage := PostStage.sending ((s.routeNotes key).getD []) })
  | PostStage.sending _ => (s, post)

/-- The call numbered `i` runs its next statement. -/
def stepCall (st : RouteGuideServer × List Post) (i : Nat) : RouteGuideServer × List Post :=
  match st.2.get? i with
  | none => st
  | some post => ((stepPost st.1 post).1, st.2.set i (stepPost st.1 post).2)

/-- Several calls run on one server, their statements taken in the order of `schedule`. -/
def runSchedule (s : RouteGuideServer) (posts : List Post) (schedule : List Nat) :
    RouteGuideServer × List Post :=
  schedule.foldl stepCall (s, posts)

/-- One call handles its note with no other call running in between: the three statements
in a row.  Returns the server afterwards and the history the call sends. -/
def postAlone (s : RouteGuideServer) (note : RouteNote) : RouteGuideServer × List RouteNote :=
  let r1 := stepPost s { note := note, stage := PostStage.atLookup }
  let r2 := stepPost r1.1 r1.2
  let r3 := stepPost r2.1 r2.2
  (r3.1, match r3.2.stage with
    | PostStage.sending history => history
    | _ => [])

/-- The posts handled one at a time, in order.  Returns the server afterwards and the
history each sender was sent. -/
def postsOneAtATime (s : RouteGuideServer) : List RouteNote → RouteGuideServer × List (List RouteNote)
  | [] => (s, [])
  | note :: rest =>
    ((postsOneAtATime (postAlone s note).1 rest).1,
      (postAlone s note).2 :: (postsOneAtATime (postAlone s note).1 rest).2)

/-! ## Lemmas on the loops and on `serialize` -/

theorem GetFeature_loop_err (p : Point) (fs : List Feature) :
    (GetFeature.loop p fs).2 = none := by
  induction fs with
  | nil => rfl
  | cons f rest ih =>
    unfold GetFeature.loop
    split
    · rfl
    · exact ih

theorem GetFeature_loop_of_no_match (p : Point) (fs : List Feature)
    (h : ∀ f ∈ fs, f.Location ≠ p) :
    GetFeature.loop p fs = ({ Name := "", Location := p }, none) := by
  induction fs with
  | nil => rfl
  | cons f rest ih =>
    unfold GetFeature.loop
    rw [if_neg (h f (List.mem_cons_self f rest))]
    exact ih (fun g hg => h g (List.mem_cons_of_mem f hg))

theorem GetFeature_loop_split (p : Point) (fs : List Feature)
    (h : ∃ f ∈ fs, f.Location = p) :
    ∃ pre post, fs = pre ++ (GetFeature.loop p fs).1 :: post ∧
      (∀ f ∈ pre, f.Location ≠ p) ∧ (GetFeature.loop p fs).1.Location = p := by
  induction fs with
  | nil =>
    obtain ⟨f, hf, _⟩ := h
    cases hf
  | cons f rest ih =>
    by_cases hfp : f.Location = p
    · refine ⟨[], rest, ?_, ?_, ?_⟩
      · simp [GetFeature.loop, hfp]
      · intro g hg
        cases hg
      · simp [GetFeature.loop, hfp]
    · have hrest : ∃ g ∈ rest, g.Location = p := by
        obtain ⟨g, hg, hgp⟩ := h
        rcases List.mem_cons.mp hg with rfl | hg
        · exact absurd hgp hfp
        · exact ⟨g, hg, hgp⟩
      obtain ⟨pre, post, hsplit, hpre, hloc⟩ := ih hrest
      have hloop : GetFeature.loop p (f :: rest) = GetFeature.loop p rest := by
        simp [GetFeature.loop, hfp]
      refine ⟨f :: pre, post, ?_, ?_, ?_⟩
      · rw [hloop, List.cons_append, ← hsplit]
      · intro g hg
        rcases List.mem_cons.mp hg with rfl | hg
        · exact hfp
        · exact hpre g hg
      · rw [hloop]
        exact hloc

theorem ListFeatures_loop_of_send_ok (rect : Rectangle) (send : Sender Unit Feature)
    (hsend : ∀ calls f, send calls f = none) (fs : List Feature)
    (calls : List (Event Unit Feature)) :
    ListFeatures.loop rect send fs calls =
      (calls ++ (fs.filter (fun f => inRange f.Location rect)).map (fun f => Event.send f none),
        none) := by
  induction fs generalizing calls with
  | nil => simp [ListFeatures.loop]
  | cons f rest ih =>
    unfold ListFeatures.loop
    by_cases hin : inRange f.Location rect = true
    · simp [hin, hsend, ih]
    · simp [hin, ih]

theorem inRange_swap_lat (p lo hi : Point) :
    inRange p ⟨⟨hi.Latitude, lo.Longitude⟩, ⟨lo.Latitude, hi.Longitude⟩⟩ = inRange p ⟨lo, hi⟩ := by
  simp only [inRange, min_comm hi.Latitude lo.Latitude, max_comm hi.Latitude lo.Latitude]

theorem inRange_swap_lon (p lo hi : Point) :
    inRange p ⟨⟨lo.Latitude, hi.Longitude⟩, ⟨hi.Latitude, lo.Longitude⟩⟩ = inRange p ⟨lo, hi⟩ := by
  simp only [inRange, min_comm hi.Longitude lo.Longitude, max_comm hi.Longitude lo.Longitude]

theorem inRange_swap_both (p lo hi : Point) :
    inRange p ⟨hi, lo⟩ = inRange p ⟨lo, hi⟩ := by
  simp only [inRange, min_comm hi.Longitude lo.Longitude, max_comm hi.Longitude lo.Longitude,
    min_comm hi.Latitude lo.Latitude, max_comm hi.Latitude lo.Latitude]

theorem ListFeatures_loop_congr (r1 r2 : Rectangle) (h : ∀ p, inRange p r1 = inRange p r2)
    (send : Sender Unit Feature) (fs : List Feature) (calls : List (Event Unit Feature)) :
    ListFeatures.loop r1 send fs calls = ListFeatures.loop r2 send fs calls := by
  induction fs generalizing calls with
  | nil => rfl
  | cons f rest ih =>
    unfold ListFeatures.loop
    rw [h f.Location]
    split
    · split
      · rfl
      · exact ih _
    · exact ih _

theorem wrapInt32_isInt32 (x : Int) : isInt32 (wrapInt32 x) := by
  unfold isInt32 wrapInt32
  omega

theorem wrapInt32_of_isInt32 (x : Int) (h : isInt32 x) : wrapInt32 x = x := by
  unfold isInt32 at h
  unfold wrapInt32
  omega

theorem wrapInt32_add_left (a b : Int) : wrapInt32 (wrapInt32 a + b) = wrapInt32 (a + b) := by
  unfold wrapInt32
  omega

theorem RecordRoute_countFeatures_eq (p : Point) (fs : List Feature) (c : Int)
    (hc : isInt32 c) :
    RecordRoute.countFeatures p fs c =
      wrapInt32 (c + ((fs.filter (fun f => f.Location = p)).length : Int)) := by
  induction fs generalizing c with
  | nil => simp [RecordRoute.countFeatures, wrapInt32_of_isInt32 c hc]
  | cons f rest ih =>
    unfold RecordRoute.countFeatures
    by_cases hfp : f.Location = p
    · rw [if_pos hfp, ih _ (wrapInt32_isInt32 _), wrapInt32_add_left]
      simp only [List.filter_cons, hfp, decide_True, if_true, List.length_cons, Nat.cast_add,
        Nat.cast_one]
      congr 1
      ring
    · rw [if_neg hfp, ih _ hc]
      simp [List.filter_cons, hfp]

theorem routeDistance_cons_cons (cd : Point → Point → Int) (p q : Point) (rest : List Point) :
    routeDistance cd (p :: q :: rest) = cd p q + routeDistance cd (q :: rest) := rfl

theorem RecordRoute_loop_eof (cd : Point → Point → Int) (el : Int)
    (sc : RouteSummary → Option Error) (s : RouteGuideServer) (route : List Point)
    (v : RecordRoute.Locals) (hp : isInt32 v.pointCount) (hf : isInt32 v.featureCount)
    (hd : isInt32 v.distance) :
    (RecordRoute.loop cd el sc s none route v).1 =
      some { PointCount := wrapInt32 (v.pointCount + route.length)
             FeatureCount := wrapInt32 (v.featureCount + routeFeatureCount s route)
             Distance := wrapInt32 (v.distance + routeDistance cd (v.lastPoint.toList ++ route))
             ElapsedTime := el } := by
  induction route generalizing v with
  | nil =>
    have hrd : routeDistance cd v.lastPoint.toList = 0 := by
      cases v.lastPoint <;> rfl
    simp [RecordRoute.loop, routeFeatureCount, hrd, wrapInt32_of_isInt32, hp, hf, hd]
  | cons p rest ih =>
    unfold RecordRoute.loop
    simp only
    rw [ih]
    · simp only [RecordRoute_countFeatures_eq p s.savedFeatures v.featureCount hf,
        wrapInt32_add_left, Option.toList, List.singleton_append]
      congr 2
      · congr 1
        simp only [List.length_cons, Nat.cast_add, Nat.cast_one]
        ring
      · congr 1
        simp only [routeFeatureCount, List.map_cons, List.sum_cons, matchCount]
        ring
      · cases hlp : v.lastPoint with
        | none => simp [wrapInt32_of_isInt32 _ hd, wrapInt32_of_isInt32 _ (wrapInt32_isInt32 _)]
        | some lp =>
          simp only [wrapInt32_add_left, Option.toList, List.singleton_append,
            routeDistance_cons_cons]
          congr 1
          ring
    · exact wrapInt32_isInt32 _
    · rw [RecordRoute_countFeatures_eq p s.savedFeatures v.featureCount hf]
      exact wrapInt32_isInt32 _
    · cases v.lastPoint with
      | none => exact hd
      | some lp => exact wrapInt32_isInt32 _

theorem RecordRoute_loop_err (cd : Point → Point → Int) (el : Int)
    (sc : RouteSummary → Option Error) (s : RouteGuideServer) (e : Error) (route : List Point)
    (v : RecordRoute.Locals) :
    RecordRoute.loop cd el sc s (some e) route v = (none, some e) := by
  induction route generalizing v with
  | nil => rfl
  | cons p rest ih =>
    unfold RecordRoute.loop
    exact ih _

theorem RecordRoute_eof (cd : Point → Point → Int) (el : Int)
    (sc : RouteSummary → Option Error) (s : RouteGuideServer) (route : List Point) :
    (RecordRoute cd el sc s ⟨route, none⟩).1 =
      some { PointCount := wrapInt32 route.length
             FeatureCount := wrapInt32 (routeFeatureCount s route)
             Distance := wrapInt32 (routeDistance cd route)
             ElapsedTime := el } := by
  unfold RecordRoute
  rw [RecordRoute_loop_eof cd el sc s route _ (by decide) (by decide) (by decide)]
  simp

set_option maxRecDepth 100000 in
theorem routeDistance_backAndForth :
    routeDistance equatorDistance backAndForth = 2161629288 := by
  decide

theorem matchCount_replicate (m : Nat) (f : Feature) :
    matchCount (NewRouteGuideServer (List.replicate m f)) f.Location = m := by
  unfold matchCount NewRouteGuideServer
  induction m with
  | zero => rfl
  | succ k ih =>
    rw [List.replicate_succ, List.filter_cons]
    simp only [decide_True, if_true, List.length_cons]
    rw [ih]

theorem routeFeatureCount_replicate (s : RouteGuideServer) (p : Point) (n : Nat) :
    routeFeatureCount s (List.replicate n p) = (n : Int) * (matchCount s p : Int) := by
  unfold routeFeatureCount
  induction n with
  | zero => simp
  | succ k ih =>
    rw [List.replicate_succ, List.map_cons, List.sum_cons, ih]
    push_cast
    ring

theorem digitChar_facts :
    ∀ d < 10, (Nat.digitChar d).toNat - 48 = d ∧ Nat.digitChar d ≠ ' ' ∧
      Nat.digitChar d ≠ '-' := by
  decide

theorem fmtNat_chars (n : Nat) : ∀ c ∈ fmtNat n, c ≠ ' ' ∧ c ≠ '-' := by
  intro c hc
  unfold fmtNat at hc
  split at hc
  · rw [List.mem_singleton] at hc
    subst hc
    decide
  · obtain ⟨d, hd, rfl⟩ := List.mem_map.mp hc
    have hlt : d < 10 := Nat.digits_lt_base (by norm_num) (List.mem_reverse.mp hd)
    exact (digitChar_facts d hlt).2

theorem fmtNat_ne_nil (n : Nat) : fmtNat n ≠ [] := by
  unfold fmtNat
  split
  · simp
  · rename_i hn
    intro h
    rw [List.map_eq_nil_iff, List.reverse_eq_nil_iff] at h
    exact hn (Nat.digits_eq_nil_iff_eq_zero.mp h)

theorem readNat_fmtNat (n : Nat) : readNat (fmtNat n) = n := by
  unfold fmtNat readNat
  split
  · rename_i hn
    subst hn
    decide
  · rw [← List.map_reverse, List.reverse_reverse, List.map_map]
    have hid : List.map ((fun c => c.toNat - 48) ∘ Nat.digitChar) (Nat.digits 10 n) =
        List.map id (Nat.digits 10 n) := by
      apply List.map_congr_left
      intro d hd
      exact (digitChar_facts d (Nat.digits_lt_base (by norm_num) hd)).1
    rw [hid, List.map_id, Nat.ofDigits_digits]

theorem readInt_fmtNat (n : Nat) : readInt (fmtNat n) = (n : Int) := by
  have hchars := fmtNat_chars n
  have hread := readNat_fmtNat n
  cases hfmt : fmtNat n with
  | nil => exact absurd hfmt (fmtNat_ne_nil n)
  | cons c cs =>
    rw [hfmt] at hchars hread
    have hc : c ≠ '-' := (hchars c (List.mem_cons_self c cs)).2
    unfold readInt
    split
    · rename_i heq
      exact absurd (List.cons.inj heq).1 hc
    · rw [hread]

theorem readInt_fmtInt (x : Int) : readInt (fmtInt x) = x := by
  unfold fmtInt
  split
  · rename_i hx
    show -(readNat (fmtNat x.natAbs) : Int) = x
    rw [readNat_fmtNat]
    omega
  · rename_i hx
    rw [readInt_fmtNat]
    omega

theorem fmtInt_chars (x : Int) : ∀ c ∈ fmtInt x, c ≠ ' ' := by
  intro c hc
  unfold fmtInt at hc
  split at hc
  · rcases List.mem_cons.mp hc with rfl | hc
    · decide
    · exact (fmtNat_chars _ c hc).1
  · exact (fmtNat_chars _ c hc).1

theorem append_sep_inj (sep : Char) (l1 l2 r1 r2 : List Char) (h1 : ∀ c ∈ l1, c ≠ sep)
    (h2 : ∀ c ∈ l2, c ≠ sep) (h : l1 ++ sep :: r1 = l2 ++ sep :: r2) : l1 = l2 ∧ r1 = r2 := by
  induction l1 generalizing l2 with
  | nil =>
    cases l2 with
    | nil => exact ⟨rfl, (List.cons.inj h).2⟩
    | cons c cs =>
      have hc := (List.cons.inj h).1
      exact absurd hc.symm (h2 c (List.mem_cons_self c cs))
  | cons a as ih =>
    cases l2 with
    | nil =>
      have hc := (List.cons.inj h).1
      exact absurd hc (h1 a (List.mem_cons_self a as))
    | cons c cs =>
      obtain ⟨hac, htl⟩ := List.cons.inj h
      obtain ⟨hl, hr⟩ := ih cs (fun x hx => h1 x (List.mem_cons_of_mem a hx))
        (fun x hx => h2 x (List.mem_cons_of_mem c hx)) htl
      exact ⟨by rw [hac, hl], hr⟩

theorem serialize_injective (p q : Point) (h : serialize p = serialize q) : p = q := by
  unfold serialize at h
  have hlist : fmtInt p.Latitude ++ ' ' :: fmtInt p.Longitude =
      fmtInt q.Latitude ++ ' ' :: fmtInt q.Longitude := congrArg String.data h
  obtain ⟨hlat, hlon⟩ := append_sep_inj ' ' _ _ _ _ (fmtInt_chars p.Latitude)
    (fmtInt_chars q.Latitude) hlist
  have h1 : p.Latitude = q.Latitude := by
    rw [← readInt_fmtInt p.Latitude, hlat, readInt_fmtInt]
  have h2 : p.Longitude = q.Longitude := by
    rw [← readInt_fmtInt p.Longitude, hlon, readInt_fmtInt]
  cases p
  cases q
  simp only at h1 h2
  rw [h1, h2]

theorem RouteChat_sendAll_of_send_ok (send : Sender RouteNote RouteNote)
    (hsend : ∀ calls n, send calls n = none) (notes : List RouteNote)
    (calls : List (Event RouteNote RouteNote)) :
    RouteChat.sendAll send notes calls = (calls ++ okSends notes, none) := by
  induction notes generalizing calls with
  | nil => simp [RouteChat.sendAll, okSends]
  | cons n rest ih =>
    unfold RouteChat.sendAll
    rw [hsend]
    simp only
    rw [ih]
    simp [okSends]

theorem RouteChat_sendAll_cases (send : Sender RouteNote RouteNote) (notes : List RouteNote)
    (calls : List (Event RouteNote RouteNote)) :
    RouteChat.sendAll send notes calls = (calls ++ okSends notes, none) ∨
    ∃ pre x post e, notes = pre ++ x :: post ∧
      RouteChat.sendAll send notes calls =
        (calls ++ okSends pre ++ [Event.send x (some e)], some e) := by
  induction notes generalizing calls with
  | nil =>
    left
    simp [RouteChat.sendAll, okSends]
  | cons n rest ih =>
    unfold RouteChat.sendAll
    cases hs : send calls n with
    | some e =>
      right
      exact ⟨[], n, rest, e, rfl, by simp [okSends]⟩
    | none =>
      simp only
      rcases ih (calls ++ [Event.send n none]) with h | ⟨pre, x, post, e, hsplit, h⟩
      · left
        rw [h]
        simp [okSends]
      · right
        refine ⟨n :: pre, x, post, e, by rw [hsplit]; rfl, ?_⟩
        rw [h]
        simp [okSends]

theorem RouteChat_loop_nil (send : Sender RouteNote RouteNote) (last : Option Error)
    (s : RouteGuideServer) (calls : List (Event RouteNote RouteNote)) :
    RouteChat.loop send last [] s calls =
      (s, calls ++ [match last with | none => Event.recvEOF | some e => Event.recvErr e],
        last) := by
  cases last <;> rfl

theorem RouteChat_loop_cons (send : Sender RouteNote RouteNote) (last : Option Error)
    (note : RouteNote) (rest : List RouteNote) (s : RouteGuideServer)
    (calls : List (Event RouteNote RouteNote)) :
    RouteChat.loop send last (note :: rest) s calls =
      match RouteChat.sendAll send (historyAt (RouteChat.record s note) note.Location)
          (calls ++ [Event.recvMsg note]) with
      | (calls1, some err) => (RouteChat.record s note, calls1, some err)
      | (calls1, none) => RouteChat.loop send last rest (RouteChat.record s note) calls1 := by
  rfl

theorem RouteChat_record_savedFeatures (s : RouteGuideServer) (note : RouteNote) :
    (RouteChat.record s note).savedFeatures = s.savedFeatures := by
  unfold RouteChat.record
  simp only
  split <;> rfl

theorem RouteChat_record_historyAt_same (s : RouteGuideServer) (note : RouteNote) :
    historyAt (RouteChat.record s note) note.Location =
      historyAt s note.Location ++ [note] := by
  unfold historyAt RouteChat.record
  simp only
  split
  · rename_i h
    simp [setNotes, h]
  · rename_i notes h
    simp [setNotes, h]

theorem RouteChat_record_routeNotes_other (s : RouteGuideServer) (note : RouteNote)
    (k : String) (hk : k ≠ serialize note.Location) :
    (RouteChat.record s note).routeNotes k = s.routeNotes k := by
  unfold RouteChat.record
  simp only
  split <;> simp [setNotes, hk]

theorem RouteChat_record_historyAt (s : RouteGuideServer) (note : RouteNote) (p : Point) :
    historyAt (RouteChat.record s note) p =
      historyAt s p ++ (if note.Location = p then [note] else []) := by
  by_cases h : note.Location = p
  · subst h
    rw [RouteChat_record_historyAt_same]
    simp
  · have hk : serialize p ≠ serialize note.Location :=
      fun heq => h (serialize_injective _ _ heq).symm
    unfold historyAt
    rw [RouteChat_record_routeNotes_other s note _ hk]
    simp [h]

theorem foldl_record_historyAt (prev : List RouteNote) (s : RouteGuideServer) (p : Point) :
    historyAt (prev.foldl RouteChat.record s) p =
      historyAt s p ++ prev.filter (fun n => n.Location = p) := by
  induction prev generalizing s with
  | nil => simp
  | cons n rest ih =>
    rw [List.foldl_cons, ih, RouteChat_record_historyAt, List.filter_cons]
    by_cases h : n.Location = p <;> simp [h]

theorem foldl_record_savedFeatures (prev : List RouteNote) (s : RouteGuideServer) :
    (prev.foldl RouteChat.record s).savedFeatures = s.savedFeatures := by
  induction prev generalizing s with
  | nil => rfl
  | cons n rest ih => rw [List.foldl_cons, ih, RouteChat_record_savedFeatures]

theorem RouteChat_loop_of_send_ok (send : Sender RouteNote RouteNote)
    (hsend : ∀ calls n, send calls n = none) (last : Option Error) (items : List RouteNote)
    (s : RouteGuideServer) (calls : List (Event RouteNote RouteNote)) :
    RouteChat.loop send last items s calls =
      ((RouteChat.loop send last items s []).1,
        calls ++ (RouteChat.loop send last items s []).2.1, last) := by
  induction items generalizing s calls with
  | nil => simp [RouteChat_loop_nil]
  | cons note rest ih =>
    rw [RouteChat_loop_cons, RouteChat_loop_cons, RouteChat_sendAll_of_send_ok send hsend,
      RouteChat_sendAll_of_send_ok send hsend]
    simp only
    rw [ih, ih (RouteChat.record s note) ([] ++ [Event.recvMsg note] ++ _)]
    simp

theorem RouteChat_loop_savedFeatures (send : Sender RouteNote RouteNote) (last : Option Error)
    (items : List RouteNote) (s : RouteGuideServer)
    (calls : List (Event RouteNote RouteNote)) :
    (RouteChat.loop send last items s calls).1.savedFeatures = s.savedFeatures := by
  induction items generalizing s calls with
  | nil => rw [RouteChat_loop_nil]
  | cons note rest ih =>
    rw [RouteChat_loop_cons]
    split
    · exact RouteChat_record_savedFeatures s note
    · rw [ih, RouteChat_record_savedFeatures]

theorem RouteChat_loop_head_isRecv (send : Sender RouteNote RouteNote) (last : Option Error)
    (items : List RouteNote) (s : RouteGuideServer)
    (hsend : ∀ calls n, send calls n = none) :
    ∃ ev tail, (RouteChat.loop send last items s []).2.1 = ev :: tail ∧ ev.isRecv = true := by
  cases items with
  | nil =>
    rw [RouteChat_loop_nil]
    cases last <;> exact ⟨_, [], rfl, rfl⟩
  | cons note rest =>
    rw [RouteChat_loop_cons, RouteChat_sendAll_of_send_ok send hsend]
    simp only
    rw [RouteChat_loop_of_send_ok send hsend]
    exact ⟨Event.recvMsg note, _, rfl, rfl⟩

theorem ListFeatures_loop_cases (rect : Rectangle) (send : Sender Unit Feature)
    (fs : List Feature) (calls : List (Event Unit Feature)) :
    ListFeatures.loop rect send fs calls =
      (calls ++ okSends (fs.filter (fun f => inRange f.Location rect)), none) ∨
    ∃ pre x post e, fs.filter (fun f => inRange f.Location rect) = pre ++ x :: post ∧
      ListFeatures.loop rect send fs calls =
        (calls ++ okSends pre ++ [Event.send x (some e)], some e) := by
  induction fs generalizing calls with
  | nil =>
    left
    simp [ListFeatures.loop, okSends]
  | cons f rest ih =>
    unfold ListFeatures.loop
    by_cases hin : inRange f.Location rect = true
    · rw [if_pos hin]
      cases hs : send calls f with
      | some e =>
        right
        exact ⟨[], f, rest.filter (fun f => inRange f.Location rect), e,
          by simp [List.filter_cons, hin], by simp [okSends]⟩
      | none =>
        simp only
        rcases ih (calls ++ [Event.send f none]) with h | ⟨pre, x, post, e, hsplit, h⟩
        · left
          rw [h]
          simp [okSends, List.filter_cons, hin]
        · right
          refine ⟨f :: pre, x, post, e, by simp [List.filter_cons, hin, hsplit], ?_⟩
          rw [h]
          simp [okSends]
    · rw [if_neg hin]
      rcases ih calls with h | ⟨pre, x, post, e, hsplit, h⟩
      · left
        rw [h]
        simp [List.filter_cons, hin]
      · right
        exact ⟨pre, x, post, e, by simp [List.filter_cons, hin, hsplit], h⟩

theorem not_mem_okSends {ι ο : Type} (msgs : List ο) (x : ο) (e : Error) :
    Event.send x (some e) ∉ (okSends msgs : List (Event ι ο)) := by
  intro h
  obtain ⟨m, _, hm⟩ := List.mem_map.mp h
  cases hm

theorem RouteChat_loop_ok_trace_cons (last : Option Error) (note : RouteNote)
    (rest : List RouteNote) (s : RouteGuideServer) (send : Sender RouteNote RouteNote)
    (hsend : ∀ calls n, send calls n = none) :
    (RouteChat.loop send last (note :: rest) s []).2.1 =
      Event.recvMsg note :: okSends (historyAt s note.Location ++ [note]) ++
        (RouteChat.loop send last rest (RouteChat.record s note) []).2.1 := by
  rw [RouteChat_loop_cons, RouteChat_sendAll_of_send_ok send hsend]
  simp only
  rw [RouteChat_loop_of_send_ok send hsend, RouteChat_record_historyAt_same]
  simp

theorem RouteChat_loop_ok_no_failed (last : Option Error) (items : List RouteNote)
    (s : RouteGuideServer) (x : RouteNote) (e : Error) :
    Event.send x (some e) ∉ (RouteChat.loop sendOk last items s []).2.1 := by
  induction items generalizing s with
  | nil =>
    rw [RouteChat_loop_nil]
    cases last <;> simp
  | cons note rest ih =>
    rw [RouteChat_loop_ok_trace_cons last note rest s sendOk (fun _ _ => rfl)]
    intro h
    rcases List.mem_append.mp h with h | h
    · rcases List.mem_cons.mp h with h | h
      · cases h
      · exact not_mem_okSends _ x e h
    · exact ih _ h

theorem RouteChat_loop_cases (send : Sender RouteNote RouteNote) (last : Option Error)
    (items : List RouteNote) (s : RouteGuideServer)
    (calls : List (Event RouteNote RouteNote)) :
    RouteChat.loop send last items s calls =
      ((RouteChat.loop sendOk last items s []).1,
        calls ++ (RouteChat.loop sendOk last items s []).2.1,
        (RouteChat.loop sendOk last items s []).2.2) ∨
    ∃ pre post x e,
      (RouteChat.loop send last items s calls).2.1 = calls ++ pre ++ [Event.send x (some e)] ∧
      (RouteChat.loop sendOk last items s []).2.1 = pre ++ Event.send x none :: post ∧
      (RouteChat.loop send last items s calls).2.2 = some e := by
  induction items generalizing s calls with
  | nil =>
    left
    simp [RouteChat_loop_nil]
  | cons note rest ih =>
    have hok := RouteChat_loop_ok_trace_cons last note rest s sendOk (fun _ _ => rfl)
    rw [RouteChat_loop_cons send]
    rcases RouteChat_sendAll_cases send (historyAt (RouteChat.record s note) note.Location)
      (calls ++ [Event.recvMsg note]) with h | ⟨pre, x, post, e, hsplit, h⟩
    · rw [h]
      simp only
      rcases ih (RouteChat.record s note)
        (calls ++ [Event.recvMsg note] ++
          okSends (historyAt (RouteChat.record s note) note.Location))
        with h2 | ⟨pre, post, x, e, h2, h3, h4⟩
      · left
        rw [h2, hok]
        have h0 : RouteChat.loop sendOk last (note :: rest) s [] =
            ((RouteChat.loop sendOk last rest (RouteChat.record s note) []).1,
              [Event.recvMsg note] ++
                okSends (historyAt (RouteChat.record s note) note.Location) ++
                (RouteChat.loop sendOk last rest (RouteChat.record s note) []).2.1, last) := by
          rw [RouteChat_loop_cons, RouteChat_sendAll_of_send_ok sendOk (fun _ _ => rfl)]
          simp only
          rw [RouteChat_loop_of_send_ok sendOk (fun _ _ => rfl)]
          simp
        rw [h0, RouteChat_record_historyAt_same]
        have h1 := RouteChat_loop_of_send_ok sendOk (fun _ _ => rfl) last rest
          (RouteChat.record s note) []
        have h5 : (RouteChat.loop sendOk last rest (RouteChat.record s note) []).2.2 = last := by
          rw [h1]
        simp [h5]
      · right
        refine ⟨Event.recvMsg note ::
          okSends (historyAt (RouteChat.record s note) note.Location) ++ pre, post, x, e,
          ?_, ?_, h4⟩
        · rw [h2]
          simp
        · rw [hok, h3, RouteChat_record_historyAt_same]
          simp
    · right
      rw [h]
      simp only
      refine ⟨Event.recvMsg note :: okSends pre,
        okSends post ++ (RouteChat.loop sendOk last rest (RouteChat.record s note) []).2.1,
        x, e, by simp, ?_, rfl⟩
      rw [hok, ← RouteChat_record_historyAt_same, hsplit]
      simp [okSends]

theorem RouteChat_state_reachable (s : RouteGuideServer) (stream : InStream RouteNote)
    (send : Sender RouteNote RouteNote) :
    ∃ k, (RouteChat s stream send).1 = (stream.items.take k).foldl RouteChat.record s := by
  obtain ⟨items, last⟩ := stream
  unfold RouteChat
  simp only
  generalize ([] : List (Event RouteNote RouteNote)) = calls
  induction items generalizing s calls with
  | nil =>
    rw [RouteChat_loop_nil]
    exact ⟨0, rfl⟩
  | cons note rest ih =>
    rw [RouteChat_loop_cons]
    split
    · exact ⟨1, rfl⟩
    · rename_i calls1 _
      obtain ⟨k, hk⟩ := ih (RouteChat.record s note) calls1
      exact ⟨k + 1, by rw [hk]; rfl⟩

/-! ## The claims -/

/-- C1: `GetFeature` returns a nil error together with, when some stored feature is located
at the point, a stored feature located at the point, and otherwise the feature with an empty
name located at the point. -/
theorem GetFeature_stored_or_unnamed (s : RouteGuideServer) (p : Point) :
    (GetFeature s p).2 = none ∧
    ((∃ f ∈ s.savedFeatures, f.Location = p) →
      (GetFeature s p).1 ∈ s.savedFeatures ∧ (GetFeature s p).1.Location = p) ∧
    ((¬ ∃ f ∈ s.savedFeatures, f.Location = p) →
      (GetFeature s p).1 = { Name := "", Location := p }) := by
  refine ⟨GetFeature_loop_err p s.savedFeatures, ?_, ?_⟩
  · intro h
    obtain ⟨pre, post, hsplit, _, hloc⟩ := GetFeature_loop_split p s.savedFeatures h
    refine ⟨?_, hloc⟩
    show (GetFeature.loop p s.savedFeatures).1 ∈ s.savedFeatures
    have hmem : (GetFeature.loop p s.savedFeatures).1 ∈
        pre ++ (GetFeature.loop p s.savedFeatures).1 :: post := by simp
    rw [← hsplit] at hmem
    exact hmem
  · intro h
    have hno : ∀ f ∈ s.savedFeatures, f.Location ≠ p := fun f hf hfp => h ⟨f, hf, hfp⟩
    show (GetFeature.loop p s.savedFeatures).1 = _
    rw [GetFeature_loop_of_no_match p s.savedFeatures hno]

/-- C1, at the store holding "Golden Gate Bridge" and the query points of the spec's
scenario. -/
theorem GetFeature_stored_or_unnamed_witness :
    (GetFeature (NewRouteGuideServer [⟨"Golden Gate Bridge", ⟨377949200, -1224831100⟩⟩])
        ⟨377949200, -1224831100⟩).1 = ⟨"Golden Gate Bridge", ⟨377949200, -1224831100⟩⟩ ∧
    (GetFeature (NewRouteGuideServer [⟨"Golden Gate Bridge", ⟨377949200, -1224831100⟩⟩])
        ⟨0, 0⟩).1 = ⟨"", ⟨0, 0⟩⟩ := by
  refine ⟨by decide, ?_⟩
  exact (GetFeature_stored_or_unnamed
    (NewRouteGuideServer [⟨"Golden Gate Bridge", ⟨377949200, -1224831100⟩⟩]) ⟨0, 0⟩).2.2
      (by decide)

/-- C2: when every send succeeds, `ListFeatures` sends exactly the stored features that
`inRange` accepts for the rectangle, each once and in store order, and returns nil; `inRange`
accepts the points inside the normalized rectangle, boundaries included, whichever way the
corners are given. -/
theorem ListFeatures_sends_inRange_filter (s : RouteGuideServer) (rect : Rectangle)
    (send : Sender Unit Feature) (hsend : ∀ calls f, send calls f = none) :
    ListFeatures s rect send =
      ((s.savedFeatures.filter (fun f => inRange f.Location rect)).map
        (fun f => Event.send f none), none) ∧
    ∀ p : Point, inRange p rect = true ↔
      (min rect.Lo.Longitude rect.Hi.Longitude ≤ p.Longitude ∧
        p.Longitude ≤ max rect.Lo.Longitude rect.Hi.Longitude ∧
        min rect.Lo.Latitude rect.Hi.Latitude ≤ p.Latitude ∧
        p.Latitude ≤ max rect.Lo.Latitude rect.Hi.Latitude) := by
  constructor
  · unfold ListFeatures
    rw [ListFeatures_loop_of_send_ok rect send hsend]
    rfl
  · intro p
    unfold inRange
    simp only [ge_iff_le]
    split
    · rename_i h
      exact ⟨fun _ => h, fun _ => rfl⟩
    · rename_i h
      exact ⟨fun hf => absurd hf (by decide), fun hp => absurd hp h⟩

/-- C2, at a three-feature store and a rectangle inverted on both axes. -/
theorem ListFeatures_sends_inRange_filter_witness :
    ListFeatures (NewRouteGuideServer [⟨"a", ⟨1, 1⟩⟩, ⟨"b", ⟨5, 5⟩⟩, ⟨"c", ⟨2, 0⟩⟩])
        ⟨⟨2, 2⟩, ⟨0, 0⟩⟩ sendOk =
      ([Event.send ⟨"a", ⟨1, 1⟩⟩ none, Event.send ⟨"c", ⟨2, 0⟩⟩ none], none) :=
  (ListFeatures_sends_inRange_filter
    (NewRouteGuideServer [⟨"a", ⟨1, 1⟩⟩, ⟨"b", ⟨5, 5⟩⟩, ⟨"c", ⟨2, 0⟩⟩]) ⟨⟨2, 2⟩, ⟨0, 0⟩⟩ sendOk
    (fun _ _ => rfl)).1

/-- C3 (as stated, refuted): on the 109-point route going back and forth between the
equator points at longitudes 0 and 180 degrees, the sum of the 108 distances is
2161629288, above the largest `int32`, and the `Distance` sent is -2133338008. -/
theorem RecordRoute_distance_not_sum :
    routeDistance equatorDistance backAndForth = 2161629288 ∧
    (RecordRoute equatorDistance 0 (fun _ => none) (NewRouteGuideServer [])
        ⟨backAndForth, none⟩).1.map RouteSummary.Distance = some (-2133338008) ∧
    (RecordRoute equatorDistance 0 (fun _ => none) (NewRouteGuideServer [])
        ⟨backAndForth, none⟩).1.map RouteSummary.Distance ≠
      some (routeDistance equatorDistance backAndForth) := by
  have h1 := routeDistance_backAndForth
  have h2 : (RecordRoute equatorDistance 0 (fun _ => none) (NewRouteGuideServer [])
        ⟨backAndForth, none⟩).1.map RouteSummary.Distance = some (-2133338008) := by
    rw [RecordRoute_eof, h1]
    decide
  refine ⟨h1, h2, ?_⟩
  rw [h2, h1]
  decide

/-- C3 (amended): for a route ended by end-of-input, the `Distance` of the summary is the
sum of `calcDistance` over consecutive points reduced to `int32` by two's-complement
wraparound, with nothing for the first point; it is that sum itself whenever the sum lies
in the `int32` range. -/
theorem RecordRoute_distance_wrapped_sum (calcDistance : Point → Point → Int)
    (elapsedTime : Int) (sendAndClose : RouteSummary → Option Error) (s : RouteGuideServer)
    (route : List Point) :
    (RecordRoute calcDistance elapsedTime sendAndClose s ⟨route, none⟩).1.map
        RouteSummary.Distance = some (wrapInt32 (routeDistance calcDistance route)) ∧
    (isInt32 (routeDistance calcDistance route) →
      (RecordRoute calcDistance elapsedTime sendAndClose s ⟨route, none⟩).1.map
        RouteSummary.Distance = some (routeDistance calcDistance route)) := by
  have h := RecordRoute_eof calcDistance elapsedTime sendAndClose s route
  refine ⟨by rw [h]; rfl, ?_⟩
  intro hfit
  rw [h]
  simp [wrapInt32_of_isInt32 _ hfit]

/-- C3 (amended), at a three-point route with distances 5 and 7. -/
theorem RecordRoute_distance_wrapped_sum_witness :
    (RecordRoute (fun p q => if p.Latitude = q.Latitude then 5 else 7) 0 (fun _ => none)
        (NewRouteGuideServer []) ⟨[⟨0, 0⟩, ⟨0, 1⟩, ⟨1, 1⟩], none⟩).1.map
      RouteSummary.Distance = some 12 :=
  (RecordRoute_distance_wrapped_sum (fun p q => if p.Latitude = q.Latitude then 5 else 7) 0
    (fun _ => none) (NewRouteGuideServer []) [⟨0, 0⟩, ⟨0, 1⟩, ⟨1, 1⟩]).2 (by decide)

/-- C4 (as stated, refuted): with 65536 stored features at one point and a route visiting
that point 32768 times, the matches add up to 2147483648, one more than the largest
`int32`, and the `FeatureCount` sent is -2147483648. -/
theorem RecordRoute_featureCount_not_sum :
    routeFeatureCount (NewRouteGuideServer (List.replicate 65536 ⟨"x", ⟨0, 0⟩⟩))
      (List.replicate 32768 ⟨0, 0⟩) = 2147483648 ∧
    (RecordRoute (fun _ _ => 0) 0 (fun _ => none)
        (NewRouteGuideServer (List.replicate 65536 ⟨"x", ⟨0, 0⟩⟩))
        ⟨List.replicate 32768 ⟨0, 0⟩, none⟩).1.map RouteSummary.FeatureCount =
      some (-2147483648) := by
  have h1 : routeFeatureCount (NewRouteGuideServer (List.replicate 65536 ⟨"x", ⟨0, 0⟩⟩))
      (List.replicate 32768 ⟨0, 0⟩) = 2147483648 := by
    rw [routeFeatureCount_replicate]
    have hm := matchCount_replicate 65536 ⟨"x", ⟨0, 0⟩⟩
    simp only at hm
    rw [hm]
    norm_num
  refine ⟨h1, ?_⟩
  rw [RecordRoute_eof, h1]
  decide

/-- C4 (amended): for a route ended by end-of-input, the `FeatureCount` of the summary is
the sum over the route's points of the number of stored features located exactly there,
reduced to `int32` by two's-complement wraparound; it is that sum itself whenever the sum
is at most 2147483647. -/
theorem RecordRoute_featureCount_wrapped_sum (calcDistance : Point → Point → Int)
    (elapsedTime : Int) (sendAndClose : RouteSummary → Option Error) (s : RouteGuideServer)
    (route : List Point) :
    (RecordRoute calcDistance elapsedTime sendAndClose s ⟨route, none⟩).1.map
        RouteSummary.FeatureCount = some (wrapInt32 (routeFeatureCount s route)) ∧
    (routeFeatureCount s route ≤ 2147483647 →
      (RecordRoute calcDistance elapsedTime sendAndClose s ⟨route, none⟩).1.map
        RouteSummary.FeatureCount = some (routeFeatureCount s route)) := by
  have h := RecordRoute_eof calcDistance elapsedTime sendAndClose s route
  refine ⟨by rw [h]; rfl, ?_⟩
  intro hfit
  have hnonneg : 0 ≤ routeFeatureCount s route := by
    unfold routeFeatureCount
    apply List.sum_nonneg
    intro x hx
    obtain ⟨p, _, rfl⟩ := List.mem_map.mp hx
    exact Int.natCast_nonneg _
  have hint : isInt32 (routeFeatureCount s route) := by
    unfold isInt32
    omega
  rw [h]
  simp [wrapInt32_of_isInt32 _ hint]

/-- C4 (amended), at a store with two features at `(1, 1)` and a route visiting that point
twice: four hits. -/
theorem RecordRoute_featureCount_wrapped_sum_witness :
    (RecordRoute (fun _ _ => 0) 0 (fun _ => none)
        (NewRouteGuideServer [⟨"a", ⟨0, 1⟩⟩, ⟨"b", ⟨1, 1⟩⟩, ⟨"c", ⟨1, 1⟩⟩])
        ⟨[⟨1, 1⟩, ⟨0, 0⟩, ⟨1, 1⟩], none⟩).1.map RouteSummary.FeatureCount = some 4 :=
  (RecordRoute_featureCount_wrapped_sum (fun _ _ => 0) 0 (fun _ => none)
    (NewRouteGuideServer [⟨"a", ⟨0, 1⟩⟩, ⟨"b", ⟨1, 1⟩⟩, ⟨"c", ⟨1, 1⟩⟩])
    [⟨1, 1⟩, ⟨0, 0⟩, ⟨1, 1⟩]).2 (by decide)

/-- C5: when every send succeeds, `RouteChat` answers an inbound note by sending the history
stored for the note's location followed by the note itself, and only then receives again;
in a registry built from the empty one by recording the notes `prev` in order, that history
is the notes of `prev` with exactly the same coordinates, in arrival order. -/
theorem RouteChat_sends_complete_history (s : RouteGuideServer) (note : RouteNote)
    (rest : List RouteNote) (last : Option Error) (send : Sender RouteNote RouteNote)
    (hsend : ∀ calls n, send calls n = none) :
    (RouteChat s ⟨note :: rest, last⟩ send).2.1 =
      Event.recvMsg note :: okSends (historyAt s note.Location ++ [note]) ++
        (RouteChat (RouteChat.record s note) ⟨rest, last⟩ send).2.1 ∧
    (∃ ev tail, (RouteChat (RouteChat.record s note) ⟨rest, last⟩ send).2.1 = ev :: tail ∧
      ev.isRecv = true) ∧
    (∀ (features : List Feature) (prev : List RouteNote),
      s = prev.foldl RouteChat.record (NewRouteGuideServer features) →
      historyAt s note.Location = prev.filter (fun n => n.Location = note.Location)) := by
  refine ⟨RouteChat_loop_ok_trace_cons last note rest s send hsend,
    RouteChat_loop_head_isRecv send last rest _ hsend, ?_⟩
  intro features prev hs
  rw [hs, foldl_record_historyAt]
  simp [historyAt, NewRouteGuideServer]

/-- C5, at a registry holding two notes, one of them at the location of the inbound
note. -/
theorem RouteChat_sends_complete_history_witness :
    (RouteChat
        ([⟨⟨1, 1⟩, "a"⟩, ⟨⟨1, 2⟩, "b"⟩].foldl RouteChat.record (NewRouteGuideServer []))
        ⟨[⟨⟨1, 1⟩, "c"⟩], none⟩ sendOk).2.1 =
      Event.recvMsg ⟨⟨1, 1⟩, "c"⟩ ::
        okSends (historyAt
          ([⟨⟨1, 1⟩, "a"⟩, ⟨⟨1, 2⟩, "b"⟩].foldl RouteChat.record (NewRouteGuideServer []))
          (⟨⟨1, 1⟩, "c"⟩ : RouteNote).Location ++ [⟨⟨1, 1⟩, "c"⟩]) ++
        (RouteChat (RouteChat.record
          ([⟨⟨1, 1⟩, "a"⟩, ⟨⟨1, 2⟩, "b"⟩].foldl RouteChat.record (NewRouteGuideServer []))
          ⟨⟨1, 1⟩, "c"⟩) ⟨[], none⟩ sendOk).2.1 ∧
    historyAt
        ([⟨⟨1, 1⟩, "a"⟩, ⟨⟨1, 2⟩, "b"⟩].foldl RouteChat.record (NewRouteGuideServer []))
        (⟨⟨1, 1⟩, "c"⟩ : RouteNote).Location =
      [⟨⟨1, 1⟩, "a"⟩] :=
  ⟨(RouteChat_sends_complete_history _ ⟨⟨1, 1⟩, "c"⟩ [] none sendOk (fun _ _ => rfl)).1,
    (RouteChat_sends_complete_history _ ⟨⟨1, 1⟩, "c"⟩ [] none sendOk (fun _ _ => rfl)).2.2
      [] [⟨⟨1, 1⟩, "a"⟩, ⟨⟨1, 2⟩, "b"⟩] rfl⟩

/-- C6: when some stored feature is located at the point, `GetFeature` returns the first
such feature in store order: the store splits into features not located at the point, the
returned feature, and the rest. -/
theorem GetFeature_returns_first_match (s : RouteGuideServer) (p : Point)
    (h : ∃ f ∈ s.savedFeatures, f.Location = p) :
    ∃ pre post, s.savedFeatures = pre ++ (GetFeature s p).1 :: post ∧
      (∀ f ∈ pre, f.Location ≠ p) ∧ (GetFeature s p).1.Location = p :=
  GetFeature_loop_split p s.savedFeatures h

/-- C6, at a store with two features sharing a location. -/
theorem GetFeature_returns_first_match_witness :
    ∃ pre post,
      (NewRouteGuideServer [⟨"a", ⟨0, 1⟩⟩, ⟨"b", ⟨1, 1⟩⟩, ⟨"c", ⟨1, 1⟩⟩]).savedFeatures =
        pre ++ (GetFeature
          (NewRouteGuideServer [⟨"a", ⟨0, 1⟩⟩, ⟨"b", ⟨1, 1⟩⟩, ⟨"c", ⟨1, 1⟩⟩]) ⟨1, 1⟩).1 :: post ∧
      (∀ f ∈ pre, f.Location ≠ ⟨1, 1⟩) ∧
      (GetFeature
        (NewRouteGuideServer [⟨"a", ⟨0, 1⟩⟩, ⟨"b", ⟨1, 1⟩⟩, ⟨"c", ⟨1, 1⟩⟩]) ⟨1, 1⟩).1.Location
          = ⟨1, 1⟩ :=
  GetFeature_returns_first_match
    (NewRouteGuideServer [⟨"a", ⟨0, 1⟩⟩, ⟨"b", ⟨1, 1⟩⟩, ⟨"c", ⟨1, 1⟩⟩]) ⟨1, 1⟩
    ⟨⟨"b", ⟨1, 1⟩⟩, by decide, rfl⟩

/-- C7: `inRange` is unchanged when the corners exchange their latitudes, their longitudes,
or both, and so `ListFeatures` makes the same calls and returns the same error for a
rectangle and for each of its inverted forms, whatever the stream does. -/
theorem inRange_ListFeatures_corner_swap (p lo hi : Point) :
    inRange p ⟨⟨hi.Latitude, lo.Longitude⟩, ⟨lo.Latitude, hi.Longitude⟩⟩ = inRange p ⟨lo, hi⟩ ∧
    inRange p ⟨⟨lo.Latitude, hi.Longitude⟩, ⟨hi.Latitude, lo.Longitude⟩⟩ = inRange p ⟨lo, hi⟩ ∧
    inRange p ⟨hi, lo⟩ = inRange p ⟨lo, hi⟩ ∧
    ∀ (s : RouteGuideServer) (send : Sender Unit Feature),
      ListFeatures s ⟨⟨hi.Latitude, lo.Longitude⟩, ⟨lo.Latitude, hi.Longitude⟩⟩ send =
        ListFeatures s ⟨lo, hi⟩ send ∧
      ListFeatures s ⟨⟨lo.Latitude, hi.Longitude⟩, ⟨hi.Latitude, lo.Longitude⟩⟩ send =
        ListFeatures s ⟨lo, hi⟩ send ∧
      ListFeatures s ⟨hi, lo⟩ send = ListFeatures s ⟨lo, hi⟩ send := by
  refine ⟨inRange_swap_lat p lo hi, inRange_swap_lon p lo hi, inRange_swap_both p lo hi, ?_⟩
  intro s send
  exact ⟨ListFeatures_loop_congr _ _ (fun q => inRange_swap_lat q lo hi) send _ _,
    ListFeatures_loop_congr _ _ (fun q => inRange_swap_lon q lo hi) send _ _,
    ListFeatures_loop_congr _ _ (fun q => inRange_swap_both q lo hi) send _ _⟩

/-- C8: when the inbound stream of `RecordRoute` ends with an error other than
end-of-input, after any number of points, `RecordRoute` returns that error and hands no
summary to `SendAndClose`; a summary is sent exactly when the stream ends with
end-of-input. -/
theorem RecordRoute_error_sends_no_summary (calcDistance : Point → Point → Int)
    (elapsedTime : Int) (sendAndClose : RouteSummary → Option Error) (s : RouteGuideServer) :
    (∀ (route : List Point) (e : Error),
      RecordRoute calcDistance elapsedTime sendAndClose s ⟨route, some e⟩ = (none, some e)) ∧
    (∀ stream : InStream Point,
      (RecordRoute calcDistance elapsedTime sendAndClose s stream).1.isSome = true ↔
        stream.last = none) := by
  constructor
  · intro route e
    exact RecordRoute_loop_err calcDistance elapsedTime sendAndClose s e route _
  · intro stream
    obtain ⟨items, last⟩ := stream
    cases last with
    | none =>
      rw [RecordRoute_eof]
      simp
    | some e =>
      have h : RecordRoute calcDistance elapsedTime sendAndClose s ⟨items, some e⟩ =
          (none, some e) :=
        RecordRoute_loop_err calcDistance elapsedTime sendAndClose s e items _
      rw [h]
      simp

/-- C9: in `ListFeatures` and in `RouteChat`, a `Send` that fails with an error is the last
call made on the stream, the handler returns that error, and the calls made before it are
exactly those a call whose sends all succeed makes before sending the same message. -/
theorem send_failure_aborts_call :
    (∀ (s : RouteGuideServer) (rect : Rectangle) (send : Sender Unit Feature) (x : Feature)
        (e : Error), Event.send x (some e) ∈ (ListFeatures s rect send).1 →
      ∃ pre post, (ListFeatures s rect send).1 = okSends pre ++ [Event.send x (some e)] ∧
        (ListFeatures s rect send).2 = some e ∧
        (ListFeatures s rect sendOk).1 = okSends pre ++ Event.send x none :: okSends post) ∧
    (∀ (s : RouteGuideServer) (stream : InStream RouteNote)
        (send : Sender RouteNote RouteNote) (x : RouteNote) (e : Error),
        Event.send x (some e) ∈ (RouteChat s stream send).2.1 →
      ∃ pre post, (RouteChat s stream send).2.1 = pre ++ [Event.send x (some e)] ∧
        (RouteChat s stream send).2.2 = some e ∧
        (RouteChat s stream sendOk).2.1 = pre ++ Event.send x none :: post) := by
  constructor
  · intro s rect send x e hmem
    unfold ListFeatures at hmem ⊢
    rw [ListFeatures_loop_of_send_ok rect sendOk (fun _ _ => rfl)]
    rcases ListFeatures_loop_cases rect send s.savedFeatures [] with
      h | ⟨pre, y, post, e2, hsplit, h⟩
    · rw [h] at hmem
      exact absurd (by simpa using hmem) (not_mem_okSends _ x e)
    · rw [h] at hmem ⊢
      rcases List.mem_append.mp hmem with hm | hm
      · exact absurd (by simpa using hm) (not_mem_okSends _ x e)
      · rw [List.mem_singleton] at hm
        injection hm with hx he
        injection he with he
        subst hx he
        refine ⟨pre, post, by simp, rfl, ?_⟩
        rw [hsplit]
        simp [okSends]
  · intro s stream send x e hmem
    unfold RouteChat at hmem ⊢
    rcases RouteChat_loop_cases send stream.last stream.items s [] with
      h | ⟨pre, post, y, e2, h1, h2, h3⟩
    · rw [h] at hmem
      exact absurd (by simpa using hmem) (RouteChat_loop_ok_no_failed _ _ _ x e)
    · rw [h1] at hmem
      rcases List.mem_append.mp hmem with hm | hm
      · have hin : Event.send x (some e) ∈
            (RouteChat.loop sendOk stream.last stream.items s []).2.1 := by
          rw [h2]
          exact List.mem_append_left _ (by simpa using hm)
        exact absurd hin (RouteChat_loop_ok_no_failed _ _ _ x e)
      · rw [List.mem_singleton] at hm
        injection hm with hx he
        injection he with he
        subst hx he
        exact ⟨pre, post, by rw [h1]; simp, h3, h2⟩

/-- C9, at a `ListFeatures` call whose second send fails and a `RouteChat` call whose third
send fails. -/
theorem send_failure_aborts_call_witness :
    (∃ pre post,
      (ListFeatures (NewRouteGuideServer [⟨"a", ⟨1, 1⟩⟩, ⟨"b", ⟨5, 5⟩⟩, ⟨"c", ⟨2, 0⟩⟩, ⟨"d", ⟨0, 0⟩⟩])
        ⟨⟨2, 2⟩, ⟨0, 0⟩⟩ (fun calls _ => if calls.length = 1 then some "gone" else none)).1 =
          okSends pre ++ [Event.send ⟨"c", ⟨2, 0⟩⟩ (some "gone")] ∧
      (ListFeatures (NewRouteGuideServer [⟨"a", ⟨1, 1⟩⟩, ⟨"b", ⟨5, 5⟩⟩, ⟨"c", ⟨2, 0⟩⟩, ⟨"d", ⟨0, 0⟩⟩])
        ⟨⟨2, 2⟩, ⟨0, 0⟩⟩ (fun calls _ => if calls.length = 1 then some "gone" else none)).2 =
          some "gone" ∧
      (ListFeatures (NewRouteGuideServer [⟨"a", ⟨1, 1⟩⟩, ⟨"b", ⟨5, 5⟩⟩, ⟨"c", ⟨2, 0⟩⟩, ⟨"d", ⟨0, 0⟩⟩])
        ⟨⟨2, 2⟩, ⟨0, 0⟩⟩ sendOk).1 =
          okSends pre ++ Event.send ⟨"c", ⟨2, 0⟩⟩ none :: okSends post) ∧
    (∃ pre post,
      (RouteChat (NewRouteGuideServer []) ⟨[⟨⟨1, 1⟩, "a"⟩, ⟨⟨1, 1⟩, "b"⟩, ⟨⟨1, 1⟩, "c"⟩], none⟩
        (fun calls _ => if calls.length = 4 then some "gone" else none)).2.1 =
          pre ++ [Event.send ⟨⟨1, 1⟩, "b"⟩ (some "gone")] ∧
      (RouteChat (NewRouteGuideServer []) ⟨[⟨⟨1, 1⟩, "a"⟩, ⟨⟨1, 1⟩, "b"⟩, ⟨⟨1, 1⟩, "c"⟩], none⟩
        (fun calls _ => if calls.length = 4 then some "gone" else none)).2.2 = some "gone" ∧
      (RouteChat (NewRouteGuideServer []) ⟨[⟨⟨1, 1⟩, "a"⟩, ⟨⟨1, 1⟩, "b"⟩, ⟨⟨1, 1⟩, "c"⟩], none⟩
        sendOk).2.1 = pre ++ Event.send ⟨⟨1, 1⟩, "b"⟩ none :: post) :=
  ⟨send_failure_aborts_call.1 _ _ _ _ _ (by decide),
    send_failure_aborts_call.2 _ _ _ _ _ (by simp [RouteChat, RouteChat.loop, RouteChat.sendAll,
      RouteChat.record, setNotes, NewRouteGuideServer])⟩

/-- C10: no sequence of calls to the four handlers changes `savedFeatures`, so `GetFeature`
and `ListFeatures` give after the calls the results they give on the freshly initialized
server. -/
theorem savedFeatures_unchanged (features : List Feature) (calls : List Call) :
    (calls.foldl serve (NewRouteGuideServer features)).savedFeatures = features ∧
    (∀ p, GetFeature (calls.foldl serve (NewRouteGuideServer features)) p =
      GetFeature (NewRouteGuideServer features) p) ∧
    (∀ rect send, ListFeatures (calls.foldl serve (NewRouteGuideServer features)) rect send =
      ListFeatures (NewRouteGuideServer features) rect send) := by
  have hserve : ∀ (s : RouteGuideServer) (c : Call),
      (serve s c).savedFeatures = s.savedFeatures := by
    intro s c
    cases c with
    | getFeature _ => rfl
    | listFeatures _ _ => rfl
    | recordRoute _ _ _ _ => rfl
    | routeChat stream send => exact RouteChat_loop_savedFeatures send _ _ s []
  have hall : ∀ (cs : List Call) (s : RouteGuideServer),
      (cs.foldl serve s).savedFeatures = s.savedFeatures := by
    intro cs
    induction cs with
    | nil => intro s; rfl
    | cons c rest ih =>
      intro s
      rw [List.foldl_cons, ih, hserve]
  have h : (calls.foldl serve (NewRouteGuideServer features)).savedFeatures = features :=
    hall calls _
  refine ⟨h, ?_, ?_⟩
  · intro p
    unfold GetFeature
    rw [h]
    rfl
  · intro rect send
    unfold ListFeatures
    rw [h]
    rfl

/-! ## Further lemmas -/

theorem RouteChat_record_getD (s : RouteGuideServer) (note : RouteNote) (k : String) :
    ((RouteChat.record s note).routeNotes k).getD [] =
      (s.routeNotes k).getD [] ++ (if serialize note.Location = k then [note] else []) := by
  by_cases hk : serialize note.Location = k
  · subst hk
    have h := RouteChat_record_historyAt_same s note
    unfold historyAt at h
    rw [h]
    simp
  · rw [RouteChat_record_routeNotes_other s note k (fun h => hk h.symm)]
    simp [hk]

theorem foldl_record_getD (posts : List RouteNote) (s : RouteGuideServer) (k : String) :
    ((posts.foldl RouteChat.record s).routeNotes k).getD [] =
      (s.routeNotes k).getD [] ++ posts.filter (fun n => serialize n.Location = k) := by
  induction posts generalizing s with
  | nil => simp
  | cons n rest ih =>
    rw [List.foldl_cons, ih, RouteChat_record_getD, List.filter_cons]
    by_cases h : serialize n.Location = k <;> simp [h]

theorem RouteChat_single_state (s : RouteGuideServer) (note : RouteNote)
    (last : Option Error) (send : Sender RouteNote RouteNote) :
    (RouteChat s ⟨[note], last⟩ send).1 = RouteChat.record s note := by
  unfold RouteChat
  simp only
  rw [RouteChat_loop_cons]
  split
  · rfl
  · rw [RouteChat_loop_nil]

/-! ## The claims on edge cases, keys, histories and concurrent calls -/

/-- C11: a `RecordRoute` call whose inbound stream ends at once with end-of-input hands
`SendAndClose` a summary whose `PointCount`, `FeatureCount` and `Distance` are 0, and returns
what `SendAndClose` returns. -/
theorem RecordRoute_empty_route (calcDistance : Point → Point → Int) (elapsedTime : Int)
    (sendAndClose : RouteSummary → Option Error) (s : RouteGuideServer) :
    RecordRoute calcDistance elapsedTime sendAndClose s ⟨[], none⟩ =
      (some { PointCount := 0, FeatureCount := 0, Distance := 0, ElapsedTime := elapsedTime },
        sendAndClose
          { PointCount := 0, FeatureCount := 0, Distance := 0, ElapsedTime := elapsedTime }) := by
  unfold RecordRoute
  simp only
  unfold RecordRoute.loop
  rfl

/-- C17: `serialize` gives two points the same key exactly when they have the same latitude
and the same longitude, so recording a note at one point leaves the history kept for any
other point as it was. -/
theorem serialize_eq_iff_same_coordinates (p q : Point) :
    (serialize p = serialize q ↔ p.Latitude = q.Latitude ∧ p.Longitude = q.Longitude) ∧
    (p ≠ q → ∀ (s : RouteGuideServer) (note : RouteNote), note.Location = p →
      (RouteChat.record s note).routeNotes (serialize q) = s.routeNotes (serialize q)) := by
  constructor
  · constructor
    · intro h
      have hpq := serialize_injective p q h
      rw [hpq]
      exact ⟨rfl, rfl⟩
    · intro h
      cases p
      cases q
      simp only at h
      rw [h.1, h.2]
  · intro hne s note hloc
    apply RouteChat_record_routeNotes_other
    intro hkey
    rw [hloc] at hkey
    exact hne (serialize_injective q p hkey).symm

/-- C17, at two points with negative coordinates swapped. -/
theorem serialize_eq_iff_same_coordinates_witness :
    ∀ (s : RouteGuideServer) (note : RouteNote), note.Location = ⟨-1, 12⟩ →
      (RouteChat.record s note).routeNotes (serialize ⟨-11, 2⟩) =
        s.routeNotes (serialize ⟨-11, 2⟩) :=
  (serialize_eq_iff_same_coordinates ⟨-1, 12⟩ ⟨-11, 2⟩).2 (by decide)

/-- C18: handling one inbound note in `RouteChat` leaves the server with that note appended
at the end of the history under the note's key (a new history when the key was absent) and
every other key as it was; over posts handled one at a time each key's history after some
posts is a prefix of its history after more posts, and from the empty registry the history
of a location is as long as the number of posts made there. -/
theorem RouteChat_record_appends_one (s : RouteGuideServer) (note : RouteNote) :
    (∀ (last : Option Error) (send : Sender RouteNote RouteNote),
      (RouteChat s ⟨[note], last⟩ send).1 = RouteChat.record s note) ∧
    (RouteChat.record s note).routeNotes (serialize note.Location) =
      some ((s.routeNotes (serialize note.Location)).getD [] ++ [note]) ∧
    (∀ k, k ≠ serialize note.Location →
      (RouteChat.record s note).routeNotes k = s.routeNotes k) ∧
    (∀ (posts more : List RouteNote) (k : String),
      ((posts.foldl RouteChat.record s).routeNotes k).getD [] <+:
        (((posts ++ more).foldl RouteChat.record s).routeNotes k).getD []) ∧
    (∀ (features : List Feature) (posts : List RouteNote) (p : Point),
      (historyAt (posts.foldl RouteChat.record (NewRouteGuideServer features)) p).length =
        (posts.filter (fun n => n.Location = p)).length) := by
  refine ⟨fun last send => RouteChat_single_state s note last send, ?_,
    fun k hk => RouteChat_record_routeNotes_other s note k hk, ?_, ?_⟩
  · unfold RouteChat.record
    simp only
    split
    · rename_i h
      simp [setNotes, h]
    · rename_i notes h
      simp [setNotes, h]
  · intro posts more k
    rw [List.foldl_append, foldl_record_getD more]
    exact List.prefix_append _ _
  · intro features posts p
    rw [foldl_record_historyAt]
    simp [historyAt, NewRouteGuideServer]

theorem float64OfInt_of_isInt32 (x : Int) (h : isInt32 x) : float64OfInt x = x := by
  unfold isInt32 at h
  unfold float64OfInt
  simp only
  rw [if_pos (by omega)]

theorem inRange_iff (p : Point) (rect : Rectangle) :
    inRange p rect = true ↔
      (min rect.Lo.Longitude rect.Hi.Longitude ≤ p.Longitude ∧
        p.Longitude ≤ max rect.Lo.Longitude rect.Hi.Longitude ∧
        min rect.Lo.Latitude rect.Hi.Latitude ≤ p.Latitude ∧
        p.Latitude ≤ max rect.Lo.Latitude rect.Hi.Latitude) := by
  unfold inRange
  simp only [ge_iff_le]
  split
  · rename_i h
    exact ⟨fun _ => h, fun _ => rfl⟩
  · rename_i h
    exact ⟨fun hf => absurd hf (by decide), fun hp => absurd hp h⟩

/-- C16: for `int32` coordinates the `float64` conversions of `inRange` change nothing, so
`inRange` holds exactly when the point's longitude and latitude lie between the smaller and
the larger of the corners' longitudes and latitudes, bounds included; the corners `lo` and
`hi`, the two other corners and every point on one of the four edges are contained. -/
theorem inRange_exact_inclusive (p lo hi : Point) (hp : p.inInt32) (hlo : lo.inInt32)
    (hhi : hi.inInt32) :
    inRangeFloat64 p ⟨lo, hi⟩ = inRange p ⟨lo, hi⟩ ∧
    (inRange p ⟨lo, hi⟩ = true ↔
      (min lo.Longitude hi.Longitude ≤ p.Longitude ∧
        p.Longitude ≤ max lo.Longitude hi.Longitude ∧
        min lo.Latitude hi.Latitude ≤ p.Latitude ∧
        p.Latitude ≤ max lo.Latitude hi.Latitude)) ∧
    inRange lo ⟨lo, hi⟩ = true ∧ inRange hi ⟨lo, hi⟩ = true ∧
    inRange ⟨lo.Latitude, hi.Longitude⟩ ⟨lo, hi⟩ = true ∧
    inRange ⟨hi.Latitude, lo.Longitude⟩ ⟨lo, hi⟩ = true ∧
    (∀ q : Point, (q.Latitude = lo.Latitude ∨ q.Latitude = hi.Latitude) →
      min lo.Longitude hi.Longitude ≤ q.Longitude →
      q.Longitude ≤ max lo.Longitude hi.Longitude → inRange q ⟨lo, hi⟩ = true) ∧
    (∀ q : Point, (q.Longitude = lo.Longitude ∨ q.Longitude = hi.Longitude) →
      min lo.Latitude hi.Latitude ≤ q.Latitude →
      q.Latitude ≤ max lo.Latitude hi.Latitude → inRange q ⟨lo, hi⟩ = true) := by
  refine ⟨?_, inRange_iff p ⟨lo, hi⟩, ?_, ?_, ?_, ?_, ?_, ?_⟩
  · unfold inRangeFloat64
    simp only [float64OfInt_of_isInt32 _ hp.1, float64OfInt_of_isInt32 _ hp.2,
      float64OfInt_of_isInt32 _ hlo.1, float64OfInt_of_isInt32 _ hlo.2,
      float64OfInt_of_isInt32 _ hhi.1, float64OfInt_of_isInt32 _ hhi.2]
    rfl
  · rw [inRange_iff]
    simp
  · rw [inRange_iff]
    simp
  · rw [inRange_iff]
    simp
  · rw [inRange_iff]
    simp
  · intro q hlat h1 h2
    rw [inRange_iff]
    refine ⟨h1, h2, ?_, ?_⟩
    · rcases hlat with h | h <;> simp [h]
    · rcases hlat with h | h <;> simp [h]
  · intro q hlon h1 h2
    rw [inRange_iff]
    refine ⟨?_, ?_, h1, h2⟩
    · rcases hlon with h | h <;> simp [h]
    · rcases hlon with h | h <;> simp [h]

/-- C16, at a rectangle inverted on both axes and the point at its corner `lo`. -/
theorem inRange_exact_inclusive_witness :
    inRangeFloat64 ⟨377949200, -1224831100⟩
        ⟨⟨377949200, -1224831100⟩, ⟨-2147483648, -2147483648⟩⟩ = true :=
  ((inRange_exact_inclusive ⟨377949200, -1224831100⟩ ⟨377949200, -1224831100⟩
      ⟨-2147483648, -2147483648⟩ (by decide) (by decide) (by decide)).1).trans
    (inRange_exact_inclusive ⟨377949200, -1224831100⟩ ⟨377949200, -1224831100⟩
      ⟨-2147483648, -2147483648⟩ (by decide) (by decide) (by decide)).2.2.1

theorem inRange_degenerate (q p : Point) : inRange q ⟨p, p⟩ = true ↔ q = p := by
  rw [inRange_iff]
  simp only [min_self, max_self]
  constructor
  · intro h
    cases q
    cases p
    simp only at h
    have h1 := le_antisymm h.2.1 h.1
    have h2 := le_antisymm h.2.2.2 h.2.2.1
    rw [h1, h2]
  · intro h
    rw [h]
    exact ⟨le_refl _, le_refl _, le_refl _, le_refl _⟩

theorem ListFeatures_degenerate_count (s : RouteGuideServer) (p : Point) :
    (ListFeatures s ⟨p, p⟩ sendOk).1.length = matchCount s p := by
  unfold ListFeatures matchCount
  rw [ListFeatures_loop_of_send_ok _ sendOk (fun _ _ => rfl)]
  have hfilter : s.savedFeatures.filter (fun f => inRange f.Location ⟨p, p⟩) =
      s.savedFeatures.filter (fun f => decide (f.Location = p)) := by
    apply List.filter_congr
    intro f _
    by_cases h : f.Location = p
    · simp [h, (inRange_degenerate p p).mpr rfl]
    · have hn : ¬ inRange f.Location ⟨p, p⟩ = true := fun hin => h ((inRange_degenerate _ _).mp hin)
      simp [h, hn]
  simp [hfilter]

theorem GetFeature_mem_iff (s : RouteGuideServer) (p : Point) :
    (GetFeature s p).1 ∈ s.savedFeatures ↔ 1 ≤ matchCount s p := by
  unfold GetFeature matchCount
  constructor
  · intro hmem
    by_cases hex : ∃ f ∈ s.savedFeatures, f.Location = p
    · obtain ⟨f, hf, hfp⟩ := hex
      apply List.length_pos_of_mem (a := f)
      exact List.mem_filter.mpr ⟨hf, by simp [hfp]⟩
    · exfalso
      have hno : ∀ f ∈ s.savedFeatures, f.Location ≠ p := fun f hf hfp => hex ⟨f, hf, hfp⟩
      rw [GetFeature_loop_of_no_match p _ hno] at hmem
      exact hno _ hmem rfl
  · intro hpos
    obtain ⟨f, hf⟩ := List.exists_mem_of_length_pos (Nat.lt_of_lt_of_le Nat.zero_lt_one hpos)
    obtain ⟨hfs, hfp⟩ := List.mem_filter.mp hf
    obtain ⟨pre, post, hsplit, _, _⟩ :=
      GetFeature_loop_split p s.savedFeatures ⟨f, hfs, by simpa using hfp⟩
    have hmem : (GetFeature.loop p s.savedFeatures).1 ∈
        pre ++ (GetFeature.loop p s.savedFeatures).1 :: post := by simp
    rw [← hsplit] at hmem
    exact hmem

theorem RecordRoute_single_featureCount (cd : Point → Point → Int) (el : Int)
    (sc : RouteSummary → Option Error) (s : RouteGuideServer) (p : Point) :
    (RecordRoute cd el sc s ⟨[p], none⟩).1.map RouteSummary.FeatureCount =
      some (wrapInt32 (matchCount s p)) := by
  rw [RecordRoute_eof]
  simp [routeFeatureCount]

/-- C20 (as stated, refuted): with 2147483648 stored features at `(0, 0)`, `GetFeature`
returns an element of the store and `ListFeatures` sends 2147483648 features for the
rectangle `lo = hi = (0, 0)`, while `RecordRoute` on the one-point route reports the
`FeatureCount` -2147483648. -/
theorem lookup_count_disagree :
    (GetFeature (NewRouteGuideServer (List.replicate 2147483648 ⟨"x", ⟨0, 0⟩⟩)) ⟨0, 0⟩).1 ∈
      (NewRouteGuideServer (List.replicate 2147483648 ⟨"x", ⟨0, 0⟩⟩)).savedFeatures ∧
    (ListFeatures (NewRouteGuideServer (List.replicate 2147483648 ⟨"x", ⟨0, 0⟩⟩))
      ⟨⟨0, 0⟩, ⟨0, 0⟩⟩ sendOk).1.length = 2147483648 ∧
    (RecordRoute (fun _ _ => 0) 0 (fun _ => none)
        (NewRouteGuideServer (List.replicate 2147483648 ⟨"x", ⟨0, 0⟩⟩))
        ⟨[⟨0, 0⟩], none⟩).1.map RouteSummary.FeatureCount = some (-2147483648) := by
  have hm : matchCount (NewRouteGuideServer (List.replicate 2147483648 ⟨"x", ⟨0, 0⟩⟩))
      ⟨0, 0⟩ = 2147483648 := matchCount_replicate 2147483648 ⟨"x", ⟨0, 0⟩⟩
  refine ⟨?_, ?_, ?_⟩
  · rw [GetFeature_mem_iff, hm]
    decide
  · rw [ListFeatures_degenerate_count, hm]
  · rw [RecordRoute_single_featureCount, hm]
    decide

/-- C20 (amended): `GetFeature(p)` returns an element of the store exactly when
`ListFeatures` sends at least one feature for the rectangle `lo = hi = p`, and the
`FeatureCount` that `RecordRoute` reports for the route `[p]` is the number of features sent
reduced to `int32`; when at most 2147483647 stored features are located at `p`, the
`FeatureCount` is that number itself and `GetFeature(p)` returns an element of the store
exactly when the `FeatureCount` is at least 1. -/
theorem lookup_count_list_agree (calcDistance : Point → Point → Int) (elapsedTime : Int)
    (sendAndClose : RouteSummary → Option Error) (s : RouteGuideServer) (p : Point) :
    ((GetFeature s p).1 ∈ s.savedFeatures ↔ 1 ≤ (ListFeatures s ⟨p, p⟩ sendOk).1.length) ∧
    (RecordRoute calcDistance elapsedTime sendAndClose s ⟨[p], none⟩).1.map
        RouteSummary.FeatureCount =
      some (wrapInt32 ((ListFeatures s ⟨p, p⟩ sendOk).1.length : Int)) ∧
    (matchCount s p ≤ 2147483647 →
      (RecordRoute calcDistance elapsedTime sendAndClose s ⟨[p], none⟩).1.map
          RouteSummary.FeatureCount =
        some ((ListFeatures s ⟨p, p⟩ sendOk).1.length : Int) ∧
      ((GetFeature s p).1 ∈ s.savedFeatures ↔
        ∃ r, (RecordRoute calcDistance elapsedTime sendAndClose s ⟨[p], none⟩).1 = some r ∧
          1 ≤ r.FeatureCount)) := by
  have hcount := RecordRoute_single_featureCount calcDistance elapsedTime sendAndClose s p
  refine ⟨?_, ?_, ?_⟩
  · rw [ListFeatures_degenerate_count]
    exact GetFeature_mem_iff s p
  · rw [ListFeatures_degenerate_count]
    exact hcount
  · intro hmax
    have hint : isInt32 (matchCount s p : Int) := by
      unfold isInt32
      omega
    rw [wrapInt32_of_isInt32 _ hint] at hcount
    refine ⟨by rw [ListFeatures_degenerate_count]; exact hcount, ?_⟩
    rw [GetFeature_mem_iff]
    constructor
    · intro hpos
      cases hr : (RecordRoute calcDistance elapsedTime sendAndClose s ⟨[p], none⟩).1 with
      | none =>
        rw [hr] at hcount
        cases hcount
      | some r =>
        rw [hr] at hcount
        refine ⟨r, rfl, ?_⟩
        have hfc : r.FeatureCount = (matchCount s p : Int) := by
          simpa using hcount
        rw [hfc]
        exact_mod_cast hpos
    · rintro ⟨r, hr, hpos⟩
      rw [hr] at hcount
      have hfc : r.FeatureCount = (matchCount s p : Int) := by
        simpa using hcount
      rw [hfc] at hpos
      exact_mod_cast hpos

/-- C20 (amended), at a store with two features at `(1, 1)`. -/
theorem lookup_count_list_agree_witness :
    (RecordRoute (fun _ _ => 0) 0 (fun _ => none)
        (NewRouteGuideServer [⟨"a", ⟨0, 1⟩⟩, ⟨"b", ⟨1, 1⟩⟩, ⟨"c", ⟨1, 1⟩⟩])
        ⟨[⟨1, 1⟩], none⟩).1.map RouteSummary.FeatureCount =
      some ((ListFeatures (NewRouteGuideServer [⟨"a", ⟨0, 1⟩⟩, ⟨"b", ⟨1, 1⟩⟩, ⟨"c", ⟨1, 1⟩⟩])
        ⟨⟨1, 1⟩, ⟨1, 1⟩⟩ sendOk).1.length : Int) :=
  ((lookup_count_list_agree (fun _ _ => 0) 0 (fun _ => none)
    (NewRouteGuideServer [⟨"a", ⟨0, 1⟩⟩, ⟨"b", ⟨1, 1⟩⟩, ⟨"c", ⟨1, 1⟩⟩]) ⟨1, 1⟩).2.2
      (by decide)).1

theorem postAlone_eq (s : RouteGuideServer) (note : RouteNote) :
    postAlone s note = (RouteChat.record s note, historyAt s note.Location ++ [note]) := by
  unfold postAlone stepPost RouteChat.record historyAt
  cases h : s.routeNotes (serialize note.Location) with
  | none => simp [stepPost, setNotes, h]
  | some notes => simp [stepPost, setNotes, h]

theorem inits_eq_nil_cons_tail {α : Type} (l : List α) : l.inits = [] :: l.inits.tail := by
  cases l with
  | nil => rfl
  | cons a rest => rw [List.inits_cons]; rfl

theorem postsOneAtATime_eq (s : RouteGuideServer) (notes : List RouteNote) (p : Point)
    (hall : ∀ n ∈ notes, n.Location = p) :
    (postsOneAtATime s notes).1 = notes.foldl RouteChat.record s ∧
    (postsOneAtATime s notes).2 = notes.inits.tail.map (fun t => historyAt s p ++ t) := by
  induction notes generalizing s with
  | nil => exact ⟨rfl, rfl⟩
  | cons note rest ih =>
    have hloc : note.Location = p := hall note (List.mem_cons_self note rest)
    obtain ⟨ih1, ih2⟩ := ih (RouteChat.record s note)
      (fun n hn => hall n (List.mem_cons_of_mem note hn))
    unfold postsOneAtATime
    rw [postAlone_eq]
    simp only
    refine ⟨ih1, ?_⟩
    rw [ih2, List.inits_cons, List.tail_cons]
    conv_rhs => rw [inits_eq_nil_cons_tail rest]
    rw [← hloc, RouteChat_record_historyAt_same]
    simp
    rfl

/-- C15 (as stated, refuted): the source takes no lock.  Two calls post the notes `a` and
`b` at the location `(1, 1)` of an empty registry and run their statements alternately:
both find the key absent, both assign a one-note history, and both are sent `[b]`.  The
final history holds one note for two posts, and the sender of `a` is not sent its own
note. -/
theorem concurrent_posts_lose_note :
    historyAt (runSchedule (NewRouteGuideServer [])
        [⟨⟨⟨1, 1⟩, "a"⟩, PostStage.atLookup⟩, ⟨⟨⟨1, 1⟩, "b"⟩, PostStage.atLookup⟩]
        [0, 1, 0, 1, 0, 1]).1 ⟨1, 1⟩ = [⟨⟨1, 1⟩, "b"⟩] ∧
    (runSchedule (NewRouteGuideServer [])
        [⟨⟨⟨1, 1⟩, "a"⟩, PostStage.atLookup⟩, ⟨⟨⟨1, 1⟩, "b"⟩, PostStage.atLookup⟩]
        [0, 1, 0, 1, 0, 1]).2 =
      [⟨⟨⟨1, 1⟩, "a"⟩, PostStage.sending [⟨⟨1, 1⟩, "b"⟩]⟩,
        ⟨⟨⟨1, 1⟩, "b"⟩, PostStage.sending [⟨⟨1, 1⟩, "b"⟩]⟩] := by
  constructor <;>
    simp [runSchedule, stepCall, stepPost, setNotes, historyAt, NewRouteGuideServer]

/-- C15 (amended): when the posts at one location are handled one at a time, each call
running its lookup, its assignment and its `range` with no other call in between, the
senders are sent the first one, the first two, ... of the posts, each a prefix of the final
history, and the final history is the posts themselves in order, as long as their number,
with no duplicate and no lost note. -/
theorem posts_one_at_a_time_consistent (features : List Feature) (notes : List RouteNote)
    (p : Point) (hall : ∀ n ∈ notes, n.Location = p) :
    (postsOneAtATime (NewRouteGuideServer features) notes).2 = notes.inits.tail ∧
    historyAt (postsOneAtATime (NewRouteGuideServer features) notes).1 p = notes ∧
    (∀ h ∈ (postsOneAtATime (NewRouteGuideServer features) notes).2,
      h <+: historyAt (postsOneAtATime (NewRouteGuideServer features) notes).1 p) ∧
    (historyAt (postsOneAtATime (NewRouteGuideServer features) notes).1 p).length =
      notes.length := by
  obtain ⟨h1, h2⟩ := postsOneAtATime_eq (NewRouteGuideServer features) notes p hall
  have hempty : historyAt (NewRouteGuideServer features) p = [] := rfl
  have hsent : (postsOneAtATime (NewRouteGuideServer features) notes).2 = notes.inits.tail := by
    rw [h2, hempty]
    simp
  have hfinal : historyAt (postsOneAtATime (NewRouteGuideServer features) notes).1 p =
      notes := by
    rw [h1, foldl_record_historyAt, hempty, List.nil_append, List.filter_eq_self]
    intro n hn
    simp [hall n hn]
  refine ⟨hsent, hfinal, ?_, by rw [hfinal]⟩
  intro h hh
  rw [hfinal]
  rw [hsent] at hh
  exact (List.mem_inits h notes).mp (List.mem_of_mem_tail hh)

/-- C15 (amended), at two posts at the location `(1, 1)`. -/
theorem posts_one_at_a_time_consistent_witness :
    historyAt (postsOneAtATime (NewRouteGuideServer [])
        [⟨⟨1, 1⟩, "a"⟩, ⟨⟨1, 1⟩, "b"⟩]).1 ⟨1, 1⟩ = [⟨⟨1, 1⟩, "a"⟩, ⟨⟨1, 1⟩, "b"⟩] ∧
    (postsOneAtATime (NewRouteGuideServer []) [⟨⟨1, 1⟩, "a"⟩, ⟨⟨1, 1⟩, "b"⟩]).2 =
      [[⟨⟨1, 1⟩, "a"⟩], [⟨⟨1, 1⟩, "a"⟩, ⟨⟨1, 1⟩, "b"⟩]] :=
  ⟨(posts_one_at_a_time_consistent [] [⟨⟨1, 1⟩, "a"⟩, ⟨⟨1, 1⟩, "b"⟩] ⟨1, 1⟩ (by decide)).2.1,
    (posts_one_at_a_time_consistent [] [⟨⟨1, 1⟩, "a"⟩, ⟨⟨1, 1⟩, "b"⟩] ⟨1, 1⟩ (by decide)).1⟩

end RouteGuide
